import Mathlib

/-!
Shallow embedding of `build.py`, the build orchestrator of the Odin + Sokol hot-reload
template, together with proofs about the claims of its specification.

Modelling conventions:
* Filesystem paths are lists of components (`Path`); Python manipulates them as strings with
  separators.  Command-line strings are rendered with `/` separators (on Windows a few of the
  strings use `\`; the difference is cosmetic and never inspected).
* External tools are oracles in `Env`: `run c` is the status `os.system c` returns, `probe`
  the outcome of the process-enumeration command, `which t` whether `shutil.which t` finds
  the tool, `sizesDiffer` the `os.path.getsize` comparison of the macOS dylib staleness check.
* Per the external-tool contract of the specification (§6: exit code 0 means the artifact
  exists at the output path), a successful compiler invocation writes its `-out:` artifact
  (and the `-pdb-name:` file, where passed) into the modelled filesystem.
* Python exceptions (`ValueError` from `int`, `CalledProcessError` from `check_output`,
  `AssertionError`, `OSError`) and `exit(n)` are the `Err` type; both end the run abnormally.
-/

deriving instance DecidableEq for Except

namespace BuildPy

/-- Decimal digit test used by the model of Python `int()`. -/
def isDigitCh (c : Char) : Bool := '0' ≤ c && c ≤ '9'

/-- Whitespace test for the model of Python `int()` (which strips surrounding whitespace). -/
def isWsCh (c : Char) : Bool := c = ' ' || c = '\t' || c = '\n' || c = '\r'

/-- Numeric value of a digit character. -/
def digitVal (c : Char) : Nat := c.toNat - 48

/-- Value of a list of digit characters, most significant first. -/
def digitsVal (cs : List Char) : Nat := cs.foldl (fun a c => a * 10 + digitVal c) 0

/-- Digits of a natural number, most significant first (model of Python `"%i"` formatting). -/
def natDigits (n : Nat) : List Char :=
  if h : n < 10 then [Char.ofNat (48 + n)]
  else natDigits (n / 10) ++ [Char.ofNat (48 + n % 10)]
decreasing_by exact Nat.div_lt_self (by omega) (by omega)

/-- Decimal rendering of a natural number. -/
def natStr (n : Nat) : String := ⟨natDigits n⟩

/-- Decimal rendering of an integer, as Python's `"%i" % i` produces it. -/
def intStr (i : Int) : String := if i < 0 then "-" ++ natStr i.natAbs else natStr i.toNat

/-- Strip leading and trailing whitespace characters. -/
def stripWs (cs : List Char) : List Char :=
  ((cs.dropWhile isWsCh).reverse.dropWhile isWsCh).reverse

/-- After the first digit, a Python integer literal may contain further digits with single
underscores between digits; `groupTail` checks the characters after the first digit. -/
def groupTail : List Char → Bool
  | [] => true
  | c :: rest =>
    if c = '_' then
      match rest with
      | [] => false
      | d :: _ => isDigitCh d && groupTail rest
    else isDigitCh c && groupTail rest

/-- Digit-group check: nonempty, starting with a digit, `groupTail` afterwards. -/
def digitGroupOk : List Char → Bool
  | [] => false
  | c :: rest => isDigitCh c && groupTail rest

/-- Model of Python `int(s)` on the characters of `s`: surrounding whitespace stripped, an
optional sign, then a digit group; `none` where Python raises `ValueError`. -/
def pyIntList (cs : List Char) : Option Int :=
  match stripWs cs with
  | [] => none
  | c :: rest =>
    if c = '-' then
      if digitGroupOk rest then some (-(digitsVal (rest.filter (fun x => x != '_')) : Int))
      else none
    else if c = '+' then
      if digitGroupOk rest then some ((digitsVal (rest.filter (fun x => x != '_')) : Int))
      else none
    else if digitGroupOk (c :: rest) then
      some ((digitsVal ((c :: rest).filter (fun x => x != '_')) : Int))
    else none

/-- Model of Python `int(s)`. -/
def pyInt (s : String) : Option Int := pyIntList s.data

/-- Model of Python `str.removeprefix`. -/
def pyStripPre (s pre : String) : String :=
  if pre.data.isPrefixOf s.data then ⟨s.data.drop pre.data.length⟩ else s

/-- Model of Python `str.removesuffix`. -/
def pyStripSuf (s suf : String) : String :=
  if suf.data.reverse.isPrefixOf s.data.reverse then
    ⟨s.data.take (s.data.length - suf.data.length)⟩
  else s

/-- Model of Python `str.endswith`. -/
def pyEndsWith (s suf : String) : Bool := suf.data.reverse.isPrefixOf s.data.reverse

/-- Model of the Python substring test `needle in hay`. -/
def strContains (hay needle : String) : Bool :=
  hay.data.tails.any (fun t => needle.data.isPrefixOf t)

/-- Filesystem paths as lists of components. -/
abbrev Path := List String

/-- Render a path with `/` separators, as the script's command strings do. -/
def pathStr (p : Path) : String := String.intercalate "/" p

/-- The `Sys` enum of build.py (values of `platform.system()`). -/
inductive Sys where
  | win
  | osx
  | linux
deriving DecidableEq

/-- `Sys.dll`: dynamic-library suffix per platform. -/
def Sys.dll : Sys → String
  | .win => ".dll"
  | .osx => ".dylib"
  | .linux => ".so"

/-- `Sys.exec`: executable suffix per platform. -/
def Sys.exec : Sys → String
  | .win => ".exe"
  | _ => ".bin"

/-- `SYSTEM.value.lower()` as used by `update_sokol` for the chmod paths. -/
def Sys.valLower : Sys → String
  | .win => "windows"
  | .osx => "darwin"
  | .linux => "linux"

/-- The command-line flags of build.py after argparse. -/
structure Args where
  hot_reload : Bool
  release : Bool
  update_sokol : Bool
  compile_sokol : Bool
  run : Bool
  debug : Bool
  no_shader_compile : Bool
  web : Bool
  emsdk_path : Option String
  gl : Bool
deriving DecidableEq

/-- Abnormal terminations: `exit(n)` and uncaught Python exceptions. -/
inductive Err where
  | exitCode (n : Nat)
  | valueError (s : String)
  | calledProcessError
  | assertionError (s : String)
  | osError (s : String)
deriving DecidableEq

/-- Classification of the commands `execute` runs (instrumentation of the command string; the
dll build records the PDB sequence number passed via `-pdb-name:`, if any). -/
inductive CmdKind where
  | dllBuild (pdbNum : Option Int)
  | exeBuild
  | releaseBuild
  | webObjBuild
  | shaderCompile
  | chmodCmd
  | clibs
  | emcc
deriving DecidableEq

/-- Observable actions of the script on the outside world. -/
inductive Event where
  | execCmd (k : CmdKind) (cmd : String)
  | download (url dest : String)
  | extractZip (zip dest : String)
  | renameFile (src dst : String)
  | popen (path : String)
  | printMsg (msg : String)
deriving DecidableEq

/-- Outcome of the process-enumeration command: exit status and the text the script reads
(`str(check_output(...))` on Windows, the captured stdout of `pgrep -f` elsewhere). -/
structure ProcOutput where
  exitCode : Nat
  output : String
deriving DecidableEq

/-- Filesystem state: the existing regular files and the existing directories. -/
structure World where
  files : List Path
  dirs : List Path
deriving DecidableEq

/-- Model of `os.path.exists`. -/
def World.pathExists (w : World) (p : Path) : Bool := w.files.contains p || w.dirs.contains p

/-- The name of `p` if it sits directly inside directory `d`. -/
def childName (d p : Path) : Option String :=
  if p.dropLast == d then p.getLast? else none

/-- Model of `os.listdir d`: names of the files and directories directly inside `d`. -/
def World.listdir (w : World) (d : Path) : List String :=
  (w.files ++ w.dirs).filterMap (childName d)

/-- Model of `os.remove`. -/
def World.removeFile (w : World) (p : Path) : World :=
  { w with files := w.files.filter (fun q => q != p) }

/-- Write (or overwrite) a file at `p`: used for artifacts external tools create, per the
external-tool contract, and for `shutil.copyfile` destinations. -/
def World.writeFile (w : World) (p : Path) : World :=
  { w with files := p :: w.files.filter (fun q => q != p) }

/-- Model of `shutil.rmtree`. -/
def World.rmtree (w : World) (d : Path) : World :=
  { files := w.files.filter (fun q => !(d.isPrefixOf q)),
    dirs := w.dirs.filter (fun q => !(d.isPrefixOf q)) }

/-- Model of `os.mkdir`. -/
def World.mkdir (w : World) (d : Path) : World :=
  { w with dirs := d :: w.dirs.filter (fun q => q != d) }

/-- Model of `os.rename src dst` for a file (atomic replace: afterwards nothing is at `src`
and the file is at `dst`). -/
def World.rename (w : World) (src dst : Path) : World :=
  { w with files := dst :: w.files.filter (fun q => q != src && q != dst) }

/-- Model of `shutil.copytree src dst` (copies the subtree; content is not tracked). -/
def World.copytree (w : World) (src dst : Path) : World :=
  { files := w.files ++ w.files.filterMap
      (fun p => if src.isPrefixOf p && p != src then some (dst ++ p.drop src.length) else none),
    dirs := dst :: (w.dirs ++ w.dirs.filterMap
      (fun p => if src.isPrefixOf p && p != src then some (dst ++ p.drop src.length) else none)) }

/-- The nonempty prefixes of a path, shortest first: the directories `make_dirs` walks. -/
def nePrefixes (p : Path) : List Path := (List.range p.length).map (fun i => p.take (i + 1))

/-- Model of build.py's `make_dirs`: create each missing component directory in turn. -/
def make_dirs (w : World) (p : Path) : World :=
  (nePrefixes p).foldl (fun w q => if w.pathExists q then w else w.mkdir q) w

/-- Host facts and external-invocation outcomes, supplied as oracles. -/
structure Env where
  sys : Sys
  machine : String
  run : String → Nat
  probe : ProcOutput
  which : String → Bool
  sizesDiffer : String → String → Bool

/-- Result of a script fragment: emitted events, the filesystem afterwards, and either a value
or an abnormal termination. -/
def Res (α : Type) : Type := List Event × World × Except Err α

/-- The events a fragment emitted. -/
def Res.trace {α : Type} (x : Res α) : List Event := x.1

/-- The filesystem after a fragment. -/
def Res.world {α : Type} (x : Res α) : World := x.2.1

/-- The value or abnormal termination of a fragment. -/
def Res.result {α : Type} (x : Res α) : Except Err α := x.2.2

/-- Successful fragment result. -/
def rok {α : Type} (w : World) (a : α) : Res α := ([], w, .ok a)

/-- Abnormally terminated fragment result. -/
def rerr {α : Type} (w : World) (e : Err) : Res α := ([], w, .error e)

/-- Sequencing: run `x`; on success feed its value and filesystem to `f`, keeping the events
emitted so far in order. -/
def rseq {α β : Type} (x : Res α) (f : α → World → Res β) : Res β :=
  match x with
  | (t, w, .error e) => (t, w, .error e)
  | (t, w, .ok a) => (t ++ (f a w).1, (f a w).2.1, (f a w).2.2)

/-- build.py's `execute`: run the command; on nonzero status print the failure and `exit(1)`. -/
def execute (env : Env) (k : CmdKind) (cmd : String) (w : World) : Res Unit :=
  if env.run cmd = 0 then ([Event.execCmd k cmd], w, .ok ())
  else ([Event.execCmd k cmd, Event.printMsg ("Failed running:" ++ cmd)], w, .error (.exitCode 1))

/-- build.py's `process_exists`.  On Windows it calls `subprocess.check_output`, which raises
`CalledProcessError` on a nonzero exit status; elsewhere it reads the captured stdout of
`pgrep -f` (`subprocess.run` does not raise on a nonzero status). -/
def process_exists (env : Env) (process_name : String) : Except Err Bool :=
  match env.sys with
  | .win =>
    if env.probe.exitCode ≠ 0 then .error .calledProcessError
    else .ok (strContains env.probe.output process_name)
  | _ => .ok (env.probe.output != "")

/-- `SOKOL_PATH`. -/
def SOKOL_PATH : Path := ["source", "sokol"]

/-- `SOKOL_SHDC_PATH`. -/
def SOKOL_SHDC_PATH : Path := ["sokol-shdc"]

/-- Shader language selected in `build_shaders`. -/
def shaderLangs (args : Args) (sys : Sys) : String :=
  if args.web then "glsl300es"
  else match sys with
    | .win => "hlsl5"
    | .linux => "glsl430"
    | .osx => if args.gl then "glsl410" else "metal_macos"

/-- Shader-compiler location per platform and architecture (`get_shader_compiler`). -/
def shdcPath (sys : Sys) (machine : String) : Path :=
  match sys with
  | .win => ["sokol-shdc", "win32", "sokol-shdc.exe"]
  | .linux =>
    if strContains machine "arm64" || strContains machine "aarch64" then
      ["sokol-shdc", "linux_arm64", "sokol-shdc"]
    else ["sokol-shdc", "linux", "sokol-shdc"]
  | .osx =>
    if strContains machine "arm64" || strContains machine "aarch64" then
      ["sokol-shdc", "osx_arm64", "sokol-shdc"]
    else ["sokol-shdc", "osx", "sokol-shdc"]

/-- build.py's `get_shader_compiler`: assert the binary exists and return its path. -/
def get_shader_compiler (env : Env) (w : World) : Res Path :=
  let p := shdcPath env.sys env.machine
  if w.pathExists p then rok w p
  else rerr w (.assertionError
    "Could not find shader compiler. Try running this script with update-sokol parameter")

/-- The shader sources `os.walk("source")` finds: files under `source` named `*.glsl`. -/
def shaderSources (w : World) : List Path :=
  w.files.filter (fun p => (["source"] : Path).isPrefixOf p && pyEndsWith (p.getLastD "") ".glsl")

/-- Output path of one shader: same directory, name prefixed `gen__` with the `glsl` suffix
rewritten to `odin`. -/
def shaderOut (s : Path) : Path :=
  s.dropLast ++ ["gen__" ++ (pyStripSuf (s.getLastD "") "glsl" ++ "odin")]

/-- One `sokol-shdc` invocation's command line. -/
def shdcCmd (shdc : Path) (s : Path) (langs : String) : String :=
  pathStr shdc ++ " -i " ++ pathStr s ++ " -o " ++ pathStr (shaderOut s) ++
    " -l " ++ langs ++ " -f sokol_odin"

/-- The shader loop of `build_shaders`; a successful invocation produces the generated file. -/
def compileShaders (env : Env) (shdc : Path) (langs : String) : List Path → World → Res Unit
  | [], w => rok w ()
  | s :: rest, w =>
    rseq (execute env .shaderCompile (shdcCmd shdc s langs) w)
      (fun _ w => compileShaders env shdc langs rest (w.writeFile (shaderOut s)))

/-- build.py's `build_shaders`. -/
def build_shaders (env : Env) (args : Args) (w : World) : Res Unit :=
  rseq ([Event.printMsg "Building shaders..."], w, .ok ())
    (fun _ w => rseq (get_shader_compiler env w)
      (fun shdc w => compileShaders env shdc (shaderLangs args env.sys) (shaderSources w) w))

/-- The hot-reload output directory `build/hot_reload`. -/
def hrOutDir : Path := ["build", "hot_reload"]

/-- The Windows debug-symbol directory `build/hot_reload/game_pdbs`. -/
def pdbDirPath : Path := ["build", "hot_reload", "game_pdbs"]

/-- The launcher executable name `game_hot_reload` + executable suffix. -/
def hrExeName (sys : Sys) : String := "game_hot_reload" ++ sys.exec

/-- The canonical dynamic-library path `build/hot_reload/game` + dll suffix. -/
def dllFinalPath (sys : Sys) : Path := ["build", "hot_reload", "game" ++ sys.dll]

/-- The path the dll is compiled to: the canonical path on Windows, elsewhere a staging name
with a `game_tmp` stem (source lines 196-200). -/
def dllStagingPath (sys : Sys) : Path :=
  if sys = .win then dllFinalPath sys else ["build", "hot_reload", "game_tmp" ++ sys.dll]

/-- The integer parse of one pdb file name:
`int(f.removesuffix(".pdb").removeprefix("game_"))`. -/
def parsePdbName (f : String) : Option Int := pyInt (pyStripPre (pyStripSuf f ".pdb") "game_")

/-- The scan loop over `os.listdir(pdb_dir)` accumulating the running maximum `pdb_number`
(source lines 229-236); an unparsable `.pdb` name raises `ValueError`. -/
def scanPdbsGo : List String → Int → Except Err Int
  | [], acc => .ok acc
  | f :: fs, acc =>
    if pyEndsWith f ".pdb" then
      match parsePdbName f with
      | none => .error (.valueError (pyStripPre (pyStripSuf f ".pdb") "game_"))
      | some n => scanPdbsGo fs (if n > acc then n else acc)
    else scanPdbsGo fs acc

/-- The pdb scan starting from `pdb_number = 0`. -/
def scanPdbs (fs : List String) : Except Err Int := scanPdbsGo fs 0

/-- Windows clean slate (process not running): delete every `.dll` file in the output
directory (source lines 217-221). -/
def removeDlls (w : World) : World :=
  (w.listdir hrOutDir).foldl
    (fun w f => if pyEndsWith f ".dll" then w.removeFile (hrOutDir ++ [f]) else w) w

/-- The Windows-only part of `build_hot_reload` (source lines 212-236): clean slate when the
game is not running, (re)create the pdb directory, and compute `pdb_number`. -/
def winPdbStage (running : Bool) (w : World) : Res Int :=
  let w1 :=
    if !running then
      let w' := removeDlls w
      if w'.pathExists pdbDirPath then w'.rmtree pdbDirPath else w'
    else w
  if !(w1.pathExists pdbDirPath) then rok (make_dirs w1 pdbDirPath) 0
  else
    match scanPdbs (w1.listdir pdbDirPath) with
    | .error e => rerr w1 e
    | .ok n => rok w1 n

/-- The `-debug` and `-define:SOKOL_USE_GL=true` flags shared by the builds. -/
def dbgGlArgs (args : Args) : String :=
  (if args.debug then " -debug" else "") ++
    (if args.gl then " -define:SOKOL_USE_GL=true" else "")

/-- The `-pdb-name:` flag of the Windows dll build (`"%s/game_%i.pdb" % (pdb_dir, n)`). -/
def pdbNameArg (n : Int) : String :=
  " -pdb-name:build/hot_reload/game_pdbs/game_" ++ intStr n ++ ".pdb"

/-- The pdb file the Windows dll build writes. -/
def newPdbFile (n : Int) : Path :=
  ["build", "hot_reload", "game_pdbs", "game_" ++ intStr n ++ ".pdb"]

/-- The dll compile command of `build_hot_reload`. -/
def dllBuildCmd (sys : Sys) (extra : String) : String :=
  "odin build source -define:SOKOL_DLL=true -build-mode:dll -out:" ++
    pathStr (dllStagingPath sys) ++ " " ++ extra

/-- The launcher compile command of `build_hot_reload`. -/
def exeBuildCmd (sys : Sys) (extra : String) : String :=
  "odin build source/main_hot_reload -strict-style -define:SOKOL_DLL=true -vet -out:" ++
    hrExeName sys ++ " " ++ extra

/-- The Windows sokol runtime dll copy next to the launcher (source lines 276-285); Python
prints, then `shutil.copyfile` raises if the source file is missing. -/
def winSokolDllStage (args : Args) (w : World) : Res Unit :=
  let dn := if args.debug then "sokol_dll_windows_x64_d3d11_debug.dll"
            else "sokol_dll_windows_x64_d3d11_release.dll"
  if !(w.pathExists [dn]) then
    if w.pathExists (SOKOL_PATH ++ [dn]) then
      ([Event.printMsg ("Copying " ++ dn)], w.writeFile [dn], .ok ())
    else ([Event.printMsg ("Copying " ++ dn)], w, .error (.osError (pathStr (SOKOL_PATH ++ [dn]))))
  else rok w ()

/-- The macOS precompiled dylib folder `source/sokol/dylib`. -/
def dylibFolder : Path := ["source", "sokol", "dylib"]

/-- The message `build_hot_reload` prints before `exit(1)` when the dylib folder is absent. -/
def osxDylibMsg : String :=
  "Dynamic libraries for OSX don't seem to be built. Please re-run 'build.py -compile-sokol'."

/-- One iteration of the macOS dylib copy loop (source lines 301-313). -/
def copyDylib (env : Env) (w : World) (d : String) : List Event × World :=
  let src := "source/sokol/dylib/" ++ d
  let dest := "dylib/" ++ d
  let do_copy := if !(w.pathExists ["dylib", d]) then true else env.sizesDiffer dest src
  if do_copy then
    ([Event.printMsg ("Copying " ++ src ++ " to " ++ dest)], w.writeFile ["dylib", d])
  else ([], w)

/-- The macOS dylib stage of `build_hot_reload` (source lines 287-313). -/
def osxDylibStage (env : Env) (w : World) : Res Unit :=
  if !(w.pathExists dylibFolder) then
    ([Event.printMsg osxDylibMsg], w, .error (.exitCode 1))
  else
    let w1 := if !(w.pathExists ["dylib"]) then w.mkdir ["dylib"] else w
    let tw := (w1.listdir dylibFolder).foldl
      (fun (acc : List Event × World) d =>
        let r := copyDylib env acc.2 d
        (acc.1 ++ r.1, r.2)) ([], w1)
    (tw.1, tw.2, .ok ())

/-- build.py's `build_hot_reload`.  Returns the path string to launch; `""` when the game was
already running (hot reload). -/
def build_hot_reload (env : Env) (args : Args) (w : World) : Res String :=
  let w := if !(w.pathExists hrOutDir) then make_dirs w hrOutDir else w
  let exe := hrExeName env.sys
  match process_exists env exe with
  | .error e => rerr w e
  | .ok game_running =>
    let stage : Res (Option Int) :=
      if env.sys = .win then
        rseq (winPdbStage game_running w) (fun n w => rok w (some (n + 1)))
      else rok w none
    rseq stage (fun pdbNum w =>
      let extra := dbgGlArgs args ++ (match pdbNum with | some n => pdbNameArg n | none => "")
      rseq ([Event.printMsg ("Building " ++ pathStr (dllFinalPath env.sys) ++ "...")], w, .ok ())
        (fun _ w => rseq (execute env (.dllBuild pdbNum) (dllBuildCmd env.sys extra) w)
          (fun _ w =>
            let w := w.writeFile (dllStagingPath env.sys)
            let w := match pdbNum with | some n => w.writeFile (newPdbFile n) | none => w
            let publish : Res Unit :=
              if env.sys ≠ .win then
                ([Event.renameFile (pathStr (dllStagingPath env.sys))
                    (pathStr (dllFinalPath env.sys))],
                  w.rename (dllStagingPath env.sys) (dllFinalPath env.sys), .ok ())
              else rok w ()
            rseq publish (fun _ w =>
              if game_running then ([Event.printMsg "Hot reloading..."], w, .ok "")
              else
                let eextra :=
                  (if env.sys = .win then " -pdb-name:build/hot_reload/main_hot_reload.pdb"
                   else "") ++ dbgGlArgs args
                rseq ([Event.printMsg ("Building " ++ exe ++ "...")], w, .ok ())
                  (fun _ w => rseq (execute env .exeBuild (exeBuildCmd env.sys eextra) w)
                    (fun _ w =>
                      let w := w.writeFile [exe]
                      let w := if env.sys = .win then
                          w.writeFile ["build", "hot_reload", "main_hot_reload.pdb"]
                        else w
                      let stage2 : Res Unit :=
                        if env.sys = .win then winSokolDllStage args w
                        else if env.sys = .osx then osxDylibStage env w
                        else rok w ()
                      rseq stage2 (fun _ w => ([], w, .ok ("./" ++ exe)))))))))

/-- The release output directory `build/release`. -/
def releaseOutDir : Path := ["build", "release"]

/-- The release executable as a string, `build/release/game_release` + suffix. -/
def releaseExeStr (sys : Sys) : String := "build/release/game_release" ++ sys.exec

/-- The release executable as a path. -/
def releaseExePath (sys : Sys) : Path := ["build", "release", "game_release" ++ sys.exec]

/-- The optimization/debug flags of `build_release`. -/
def releaseExtraArgs (args : Args) (sys : Sys) : String :=
  (if !args.debug then
     " -no-bounds-check -o:speed" ++ (if sys = .win then " -subsystem:windows" else "")
   else " -debug") ++
    (if args.gl then " -define:SOKOL_USE_GL=true" else "")

/-- The release compile command. -/
def releaseCmd (sys : Sys) (extra : String) : String :=
  "odin build source/main_release -out:" ++ releaseExeStr sys ++ " -strict-style -vet " ++ extra

/-- build.py's `build_release`: delete and recreate `build/release`, compile the executable,
copy the assets tree (`shutil.copytree` raises if `assets` is absent). -/
def build_release (env : Env) (args : Args) (w : World) : Res String :=
  let w := if w.pathExists releaseOutDir then w.rmtree releaseOutDir else w
  let w := make_dirs w releaseOutDir
  rseq ([Event.printMsg ("Building " ++ releaseExeStr env.sys ++ "...")], w, .ok ())
    (fun _ w =>
      rseq (execute env .releaseBuild (releaseCmd env.sys (releaseExtraArgs args env.sys)) w)
        (fun _ w =>
          let w := w.writeFile (releaseExePath env.sys)
          if w.pathExists ["assets"] then
            ([], w.copytree ["assets"] ["build", "release", "assets"], .ok (releaseExeStr env.sys))
          else rerr w (.osError "assets")))

/-- build.py's `get_emscripten_env_command`. -/
def get_emscripten_env_command (args : Args) (sys : Sys) : Option String :=
  match args.emsdk_path with
  | none => none
  | some p =>
    if sys = .win then some (p ++ "/emsdk_env.bat")
    else some ("source " ++ p ++ "/emsdk_env.sh")

/-- The debug/release suffix of the precompiled wasm libraries. -/
def wasmLibSuffix (args : Args) : String := if args.debug then "debug.a" else "release.a"

/-- The files handed to emcc. -/
def emccFilesStr (args : Args) : String :=
  String.intercalate " "
    ["build/web/game.wasm.o",
     "source/sokol/app/sokol_app_wasm_gl_" ++ wasmLibSuffix args,
     "source/sokol/glue/sokol_glue_wasm_gl_" ++ wasmLibSuffix args,
     "source/sokol/gfx/sokol_gfx_wasm_gl_" ++ wasmLibSuffix args,
     "source/sokol/shape/sokol_shape_wasm_gl_" ++ wasmLibSuffix args,
     "source/sokol/log/sokol_log_wasm_gl_" ++ wasmLibSuffix args,
     "source/sokol/gl/sokol_gl_wasm_gl_" ++ wasmLibSuffix args]

/-- The fixed emcc flags. -/
def emccFlags : String :=
  "--shell-file source/web/index_template.html --preload-file assets -sWASM_BIGINT -sWARN_ON_UNDEFINED_SYMBOLS=0 -sMAX_WEBGL_VERSION=2 -sASSERTIONS"

/-- The emcc link command before any emsdk-environment wrapping. -/
def emccBaseCmd (args : Args) : String :=
  "emcc " ++ (if args.debug then " -g " else "") ++ " -o build/web/index.html " ++
    emccFilesStr args ++ " " ++ emccFlags

/-- The message `build_web` prints before `exit(1)` when emcc cannot be found. -/
def emccNotFoundMsg : String :=
  "Could not find emcc. Try providing emscripten SDK path using '-emsdk-path PATH' or run the emsdk_env script inside the emscripten folder before running this script."

/-- build.py's `build_web` (the `odin root` lookup and the `odin.js` copy are modelled as the
copy of the destination file only). -/
def build_web (env : Env) (args : Args) (w : World) : Res Unit :=
  let w := make_dirs w ["build", "web"]
  rseq ([Event.printMsg "Building js_wasm32 game object..."], w, .ok ())
    (fun _ w => rseq (execute env .webObjBuild
        ("odin build source/main_web -target:js_wasm32 -build-mode:obj -vet -strict-style -out:build/web/game " ++
          (if args.debug then " -debug" else "")) w)
      (fun _ w =>
        let w := w.writeFile ["build", "web", "game.wasm.o"]
        let w := w.writeFile ["build", "web", "odin.js"]
        let emsdk := get_emscripten_env_command args env.sys
        let emcc_command :=
          match emsdk with
          | some e =>
            if env.sys = .win then e ++ " && " ++ emccBaseCmd args
            else "bash -c \"" ++ e ++ " && " ++ emccBaseCmd args ++ "\""
          | none => emccBaseCmd args
        let check : Res Unit :=
          match emsdk with
          | some _ => rok w ()
          | none =>
            if env.which "emcc" then rok w ()
            else ([Event.printMsg emccNotFoundMsg], w, .error (.exitCode 1))
        rseq check (fun _ w =>
          rseq ([Event.printMsg "Building web application using emscripten to build/web..."],
              w, .ok ())
            (fun _ w => rseq (execute env .emcc emcc_command w)
              (fun _ w => rok (w.removeFile ["build", "web", "game.wasm.o"]) ())))))

/-- The sokol-odin archive URL. -/
def SOKOL_ZIP_URL : String := "https://github.com/floooh/sokol-odin/archive/refs/heads/main.zip"

/-- The sokol-tools archive URL. -/
def TOOLS_ZIP_URL : String :=
  "https://github.com/floooh/sokol-tools-bin/archive/refs/heads/master.zip"

/-- `update_sokol_bindings`: replace `source/sokol` from a freshly downloaded archive.  The
archive holds a `sokol-odin-main/sokol` subtree; extraction is modelled as creating it. -/
def update_sokol_bindings (env : Env) (w : World) : Res Unit :=
  let w := if w.pathExists SOKOL_PATH then w.rmtree SOKOL_PATH else w
  rseq ([Event.printMsg "Downloading Sokol Odin bindings to directory source/sokol...",
         Event.download SOKOL_ZIP_URL "sokol-temp.zip"], w.writeFile ["sokol-temp.zip"], .ok ())
    (fun _ w =>
      let w := { w with dirs :=
        [["sokol-temp"], ["sokol-temp", "sokol-odin-main"],
         ["sokol-temp", "sokol-odin-main", "sokol"]] ++ w.dirs }
      rseq ([Event.extractZip "sokol-temp.zip" "sokol-temp"], w, .ok ())
        (fun _ w =>
          let w := w.copytree ["sokol-temp", "sokol-odin-main", "sokol"] SOKOL_PATH
          rok ((w.removeFile ["sokol-temp.zip"]).rmtree ["sokol-temp"]) ()))

/-- `update_sokol_shdc`: replace `sokol-shdc` from a freshly downloaded archive, then on
non-Windows chmod the two platform compiler binaries. -/
def update_sokol_shdc (env : Env) (w : World) : Res Unit :=
  let w := if w.pathExists SOKOL_SHDC_PATH then w.rmtree SOKOL_SHDC_PATH else w
  rseq ([Event.printMsg "Downloading Sokol Shader Compiler to directory sokol-shdc...",
         Event.download TOOLS_ZIP_URL "sokol-tools-temp.zip"],
        w.writeFile ["sokol-tools-temp.zip"], .ok ())
    (fun _ w =>
      let w := { w with dirs :=
        [["sokol-tools-temp"], ["sokol-tools-temp", "sokol-tools-bin-master"],
         ["sokol-tools-temp", "sokol-tools-bin-master", "bin"]] ++ w.dirs }
      rseq ([Event.extractZip "sokol-tools-temp.zip" "sokol-tools-temp"], w, .ok ())
        (fun _ w =>
          let w := w.copytree ["sokol-tools-temp", "sokol-tools-bin-master", "bin"]
            SOKOL_SHDC_PATH
          let chmods : Res Unit :=
            if env.sys ≠ .win then
              rseq (execute env .chmodCmd
                  ("chmod +x sokol-shdc/" ++ env.sys.valLower ++ "/sokol-shdc") w)
                (fun _ w => execute env .chmodCmd
                  ("chmod +x sokol-shdc/" ++ env.sys.valLower ++ "_arm64/sokol-shdc") w)
            else rok w ()
          rseq chmods (fun _ w =>
            rok ((w.removeFile ["sokol-tools-temp.zip"]).rmtree ["sokol-tools-temp"]) ())))

/-- build.py's `update_sokol`: bindings, then shader compiler. -/
def update_sokol (env : Env) (w : World) : Res Unit :=
  rseq (update_sokol_bindings env w) (fun _ w => update_sokol_shdc env w)

/-- The warning `compile_sokol` prints when no emcc is available (wasm libs skipped). -/
def emccMissingMsg : String :=
  "emcc not in PATH, skipping building of WASM libs. Tip: You can also use -emsdk-path to specify where emscripten lives."

/-- The warning `compile_sokol` prints on Windows when `cl.exe` is not on the PATH. -/
def clMissingMsg : String :=
  "cl.exe not in PATH. Try re-running build.py with flag -compile-sokol from a Visual Studio command prompt."

/-- The message `compile_sokol` prints first. -/
def clibsStartMsg : String := "Building Sokol C libraries..."

/-- The wasm-library part of `compile_sokol` on Linux/macOS. -/
def compileWasmUnix (env : Env) (args : Args) (w : World) : Res Unit :=
  match get_emscripten_env_command args env.sys with
  | some e => execute env .clibs ("bash -c \"" ++ e ++ " &&  bash build_clibs_wasm.sh\"") w
  | none =>
    if env.which "emcc" then execute env .clibs "bash build_clibs_wasm.sh" w
    else ([Event.printMsg emccMissingMsg], w, .ok ())

/-- build.py's `compile_sokol` (an absent `source/sokol` makes `os.chdir` raise). -/
def compile_sokol (env : Env) (args : Args) (w : World) : Res Unit :=
  if !(w.pathExists SOKOL_PATH) then rerr w (.osError "source/sokol")
  else
    rseq ([Event.printMsg clibsStartMsg], w, .ok ())
      (fun _ w =>
        match env.sys with
        | .win =>
          rseq (if env.which "cl.exe" then execute env .clibs "build_clibs_windows.cmd" w
                else ([Event.printMsg clMissingMsg], w, .ok ()))
            (fun _ w =>
              match get_emscripten_env_command args .win with
              | some e => execute env .clibs (e ++ " && build_clibs_wasm.bat") w
              | none =>
                if env.which "emcc.bat" then execute env .clibs "build_clibs_wasm.bat" w
                else ([Event.printMsg emccMissingMsg], w, .ok ()))
        | .linux =>
          rseq (execute env .clibs "bash build_clibs_linux.sh" w)
            (fun _ w => compileWasmUnix env args w)
        | .osx =>
          rseq (execute env .clibs "bash build_clibs_macos.sh" w)
            (fun _ w => rseq (execute env .clibs "bash build_clibs_macos_dylib.sh" w)
              (fun _ w => compileWasmUnix env args w)))

/-- build.py's `main`. -/
def mainRun (env : Env) (args : Args) (w : World) : Res Unit :=
  let bootstrap : Res Unit :=
    if args.update_sokol || !(w.pathExists SOKOL_PATH || w.pathExists SOKOL_SHDC_PATH) then
      rseq (update_sokol env w) (fun _ w => compile_sokol env args w)
    else if args.compile_sokol then compile_sokol env args w
    else rok w ()
  rseq bootstrap (fun _ w =>
    rseq (if !args.no_shader_compile then build_shaders env args w else rok w ())
      (fun _ w =>
        if !args.web then
          rseq (if args.release then build_release env args w else build_hot_reload env args w)
            (fun exe_path w =>
              if exe_path != "" && args.run then
                ([Event.printMsg ("Starting " ++ exe_path), Event.popen exe_path], w, .ok ())
              else rok w ())
        else build_web env args w))

/-- The number of exclusive build modes requested. -/
def numBuildModes (args : Args) : Nat :=
  (if args.hot_reload then 1 else 0) + (if args.release then 1 else 0) +
    (if args.web then 1 else 0)

/-- The usage error for conflicting modes. -/
def conflictMsg : String := "Can only use one of: -hot-reload, -release and -web."

/-- The usage error for no mode at all. -/
def noModeMsg : String :=
  "You must use one of: -hot-reload, -release, -web, -update-sokol or -compile-sokol."

/-- The whole script: module-level argument validation (source lines 90-99), then `main`. -/
def runProgram (env : Env) (args : Args) (w : World) : Res Unit :=
  if numBuildModes args > 1 then ([Event.printMsg conflictMsg], w, .error (.exitCode 1))
  else if numBuildModes args == 0 && !args.update_sokol && !args.compile_sokol then
    ([Event.printMsg noModeMsg], w, .error (.exitCode 1))
  else mainRun env args w

/-- Event observation: a launcher-executable compile. -/
def isOdinExeBuild : Event → Bool
  | .execCmd .exeBuild _ => true
  | _ => false

/-- Event observation: a process launch (`subprocess.Popen`). -/
def isPopenEv : Event → Bool
  | .popen _ => true
  | _ => false

/-- Event observation: a download. -/
def isDownloadEv : Event → Bool
  | .download _ _ => true
  | _ => false

/-- Event observation: an `os.rename`. -/
def isRenameEv : Event → Bool
  | .renameFile _ _ => true
  | _ => false

/-- Event observation: any external command or process start (used to state "no external
process was started"). -/
def isExternalEv : Event → Bool
  | .execCmd _ _ => true
  | .download _ _ => true
  | .popen _ => true
  | _ => false

/-- The compiler invocations in a trace, by kind. -/
def odinKindsOf (t : List Event) : List CmdKind :=
  t.filterMap (fun e => match e with
    | .execCmd k _ => match k with
      | .dllBuild n => some (.dllBuild n)
      | .exeBuild => some .exeBuild
      | .releaseBuild => some .releaseBuild
      | .webObjBuild => some .webObjBuild
      | _ => none
    | _ => none)

/-- The PDB sequence numbers passed to dll compiles in a trace, in order. -/
def pdbNumsOf (t : List Event) : List Int :=
  t.filterMap (fun e => match e with
    | .execCmd (.dllBuild (some n)) _ => some n
    | _ => none)

/-- Did a fragment end successfully? -/
def resultOkB {α : Type} : Except Err α → Bool
  | .ok _ => true
  | .error _ => false

/-- "Nothing to launch": the returned launch path is empty whenever the fragment succeeded. -/
def launchEmptyB : Except Err String → Bool
  | .ok s => s == ""
  | .error _ => true

/-- Did a fragment raise `ValueError` (an integer-parse failure)? -/
def isValueErrB {α : Type} : Except Err α → Bool
  | .error (.valueError _) => true
  | _ => false

/-- On success, nothing is left at the staging path and the canonical library path exists
(trivially true on failure). -/
def stagingGoneOnOk (sys : Sys) (x : Res String) : Bool :=
  match x.2.2 with
  | .ok _ => !(x.2.1.pathExists (dllStagingPath sys)) && x.2.1.pathExists (dllFinalPath sys)
  | .error _ => true

/-- On success the trace holds exactly one compiler invocation (trivially true on failure). -/
def oneOdinOnOk (x : Res String) : Bool :=
  match x.2.2 with
  | .ok _ => (odinKindsOf x.1).length == 1
  | .error _ => true

/-- Iterate hot-reload builds (one `Env` of external outcomes per build), collecting the PDB
sequence numbers passed to the dll compiles; stops at the first abnormal termination. -/
def hotReloadSeq (args : Args) : List Env → World → List Int × World × Bool
  | [], w => ([], w, true)
  | e :: es, w =>
    match build_hot_reload e args w with
    | (t, w', r) =>
      match r with
      | .error _ => (pdbNumsOf t, w', false)
      | .ok _ =>
        match hotReloadSeq args es w' with
        | (ns, w'', b) => (pdbNumsOf t ++ ns, w'', b)

/-- The world after `build_hot_reload`'s initial output-directory creation step. -/
def hrWorld1 (w : World) : World :=
  if !(w.pathExists hrOutDir) then make_dirs w hrOutDir else w

/-- The invariant a Windows hot-reload session maintains: the debug-symbol directory exists
and holds the pdb file of the most recent sequence number `m`. -/
def pdbInv (w : World) (m : Int) : Prop :=
  w.pathExists pdbDirPath = true ∧
    ("game_" ++ intStr m ++ ".pdb") ∈ w.listdir pdbDirPath

/-- Name shape `game_<decimal digits>.pdb` (the shape claim C10 speaks about). -/
def isGamePdbName (s : String) : Bool :=
  "game_".data.isPrefixOf s.data && ".pdb".data.reverse.isPrefixOf s.data.reverse &&
    decide (9 < s.data.length) && ((s.data.drop 5).take (s.data.length - 9)).all isDigitCh

/-- Sanity condition on worlds: every proper prefix of an existing file's path is an existing
directory (what a real filesystem guarantees). -/
def World.closedB (w : World) : Bool :=
  w.files.all (fun p => (List.range p.length).all (fun i => i == 0 || w.dirs.contains (p.take i)))

/-- The files strictly under directory `d`. -/
def World.filesUnder (w : World) (d : Path) : List Path :=
  w.files.filter (fun p => d.isPrefixOf p && p != d)

/-- The copies `shutil.copytree "assets" "build/release/assets"` produces from `w`'s
assets tree. -/
def assetsCopies (w : World) : List Path :=
  (w.filesUnder ["assets"]).map (fun q => ["build", "release", "assets"] ++ q.drop 1)

/-- Did the module-level argument validation pass (source lines 90-99)? -/
def validArgsB (args : Args) : Bool :=
  !(1 < numBuildModes args : Bool) &&
    !(numBuildModes args == 0 && !args.update_sokol && !args.compile_sokol)

/-- Every event of a fragment's trace satisfies `P`. -/
def evOk (P : Event → Bool) {α : Type} (x : Res α) : Prop := ∀ e ∈ x.1, P e = true

/-- The bootstrap trigger condition of `main` (source lines 113-116). -/
def bootstrapCond (args : Args) (w : World) : Bool :=
  args.update_sokol || !(w.pathExists SOKOL_PATH || w.pathExists SOKOL_SHDC_PATH)

/-- A Windows host on which every command succeeds and the process probe reports the launcher
running (its name appears in the enumeration output). -/
def envWinRunning : Env :=
  { sys := .win, machine := "AMD64", run := fun _ => 0,
    probe := ⟨0, "b'game_hot_reload.exe 1234 Console'"⟩,
    which := fun _ => false, sizesDiffer := fun _ _ => false }

/-- A Windows host on which every command succeeds and the probe reports not running. -/
def envWinIdle : Env :=
  { envWinRunning with
    probe := ⟨0, "INFO: No tasks are running which match the specified criteria."⟩ }

/-- A Windows host whose process enumeration command exits with status 1. -/
def envWinProbeFail : Env := { envWinRunning with probe := ⟨1, ""⟩ }

/-- A macOS host on which every command succeeds and the probe produces no output. -/
def envOsxIdle : Env :=
  { sys := .osx, machine := "x86_64", run := fun _ => 0, probe := ⟨1, ""⟩,
    which := fun _ => false, sizesDiffer := fun _ _ => false }

/-- A Linux host on which every command succeeds and the probe produces no output. -/
def envLinIdle : Env := { envOsxIdle with sys := .linux }

/-- Hot-reload flags (shader compilation suppressed to keep scenarios small). -/
def argsHotReload : Args :=
  { hot_reload := true, release := false, update_sokol := false, compile_sokol := false,
    run := false, debug := false, no_shader_compile := true, web := false,
    emsdk_path := none, gl := false }

/-- Release flags, shader compilation enabled. -/
def argsRelease : Args :=
  { argsHotReload with hot_reload := false, release := true, no_shader_compile := false }

/-- Conflicting flags: hot-reload and release together. -/
def argsConflict : Args := { argsHotReload with release := true }

/-- No mode at all. -/
def argsNoMode : Args := { argsHotReload with hot_reload := false }

/-- Only `-compile-sokol`. -/
def argsCompileOnly : Args := { argsHotReload with compile_sokol := true }

/-- A world with only the dependency directory `source/sokol` (for `compile_sokol` runs). -/
def wSokolOnly : World := { files := [], dirs := [["source"], ["source", "sokol"]] }

/-- A Linux/macOS base world: dependencies, shader compiler binaries and assets present, no
build outputs, no macOS dylib folder. -/
def wUnixBase : World :=
  { files := [["assets", "player.png"], ["sokol-shdc", "osx", "sokol-shdc"],
      ["sokol-shdc", "linux", "sokol-shdc"]],
    dirs := [["source"], ["source", "sokol"], ["sokol-shdc"], ["sokol-shdc", "osx"],
      ["sokol-shdc", "linux"], ["assets"]] }

/-- A Windows base world: dependencies present, the sokol runtime dll already copied. -/
def wWinBase : World :=
  { files := [["sokol_dll_windows_x64_d3d11_release.dll"], ["assets", "player.png"]],
    dirs := [["source"], ["source", "sokol"], ["sokol-shdc"], ["assets"]] }

/-- A release-seeded world: a stale file sits in `build/release` before the build. -/
def wRelSeed : World :=
  { files := [["build", "release", "stale.txt"], ["assets", "a.png"],
      ["assets", "sub", "b.png"]],
    dirs := [["build"], ["build", "release"], ["assets"], ["assets", "sub"]] }

/-- A Windows world whose pdb directory holds the foreign file `7.pdb`. -/
def wPdb7 : World :=
  { files := [["build", "hot_reload", "game_pdbs", "7.pdb"],
      ["sokol_dll_windows_x64_d3d11_release.dll"]],
    dirs := [["build"], ["build", "hot_reload"], ["build", "hot_reload", "game_pdbs"],
      ["source"], ["source", "sokol"]] }

/-- A Windows world whose pdb directory holds the unparsable file `launcher.pdb`. -/
def wPdbBad : World :=
  { files := [["build", "hot_reload", "game_pdbs", "launcher.pdb"],
      ["sokol_dll_windows_x64_d3d11_release.dll"]],
    dirs := [["build"], ["build", "hot_reload"], ["build", "hot_reload", "game_pdbs"],
      ["source"], ["source", "sokol"]] }

/-! ### Helper lemmas about the filesystem model -/

theorem contains_iff_mem {l : List Path} {q : Path} : l.contains q = true ↔ q ∈ l := by
  simp [List.contains]

theorem pathExists_true_iff {w : World} {q : Path} :
    w.pathExists q = true ↔ q ∈ w.files ∨ q ∈ w.dirs := by
  simp [World.pathExists, List.contains]

theorem pathExists_false_iff {w : World} {q : Path} :
    w.pathExists q = false ↔ q ∉ w.files ∧ q ∉ w.dirs := by
  rw [← Bool.not_eq_true, pathExists_true_iff]
  tauto

theorem mem_files_writeFile {w : World} {p q : Path} :
    q ∈ (w.writeFile p).files ↔ q = p ∨ q ∈ w.files := by
  simp only [World.writeFile, List.mem_cons, List.mem_filter, bne_iff_ne]
  constructor
  · rintro (h | ⟨h, _⟩) <;> tauto
  · rintro (rfl | h)
    · exact Or.inl rfl
    · by_cases hq : q = p
      · exact Or.inl hq
      · exact Or.inr ⟨h, hq⟩

theorem dirs_writeFile {w : World} {p : Path} : (w.writeFile p).dirs = w.dirs := rfl

theorem pathExists_writeFile {w : World} {p q : Path} :
    (w.writeFile p).pathExists q = true ↔ q = p ∨ w.pathExists q = true := by
  simp only [pathExists_true_iff, mem_files_writeFile, dirs_writeFile]
  tauto

theorem mem_files_rename {w : World} {s d q : Path} :
    q ∈ (w.rename s d).files ↔ q = d ∨ (q ∈ w.files ∧ q ≠ s ∧ q ≠ d) := by
  simp only [World.rename, List.mem_cons, List.mem_filter, Bool.and_eq_true, bne_iff_ne]

theorem dirs_rename {w : World} {s d : Path} : (w.rename s d).dirs = w.dirs := rfl

theorem mem_dirs_mkdir {w : World} {d q : Path} :
    q ∈ (w.mkdir d).dirs ↔ q = d ∨ q ∈ w.dirs := by
  simp only [World.mkdir, List.mem_cons, List.mem_filter, bne_iff_ne]
  constructor
  · rintro (h | ⟨h, _⟩) <;> tauto
  · rintro (rfl | h)
    · exact Or.inl rfl
    · by_cases hq : q = d
      · exact Or.inl hq
      · exact Or.inr ⟨h, hq⟩

theorem files_mkdir {w : World} {d : Path} : (w.mkdir d).files = w.files := rfl

theorem pathExists_mkdir {w : World} {d q : Path} :
    (w.mkdir d).pathExists q = true ↔ q = d ∨ w.pathExists q = true := by
  simp only [pathExists_true_iff, mem_dirs_mkdir, files_mkdir]
  tauto

theorem files_foldl_mkdirs {L : List Path} {w : World} :
    (L.foldl (fun w p => if w.pathExists p then w else w.mkdir p) w).files = w.files := by
  induction L generalizing w with
  | nil => rfl
  | cons d L ih =>
    simp only [List.foldl_cons]
    by_cases h : w.pathExists d = true
    · rw [if_pos h]; exact ih
    · rw [if_neg (by simp [h])]; rw [ih]; exact files_mkdir

theorem pathExists_foldl_mkdirs {L : List Path} {w : World} {q : Path} :
    ((L.foldl (fun w p => if w.pathExists p then w else w.mkdir p) w).pathExists q = true) ↔
      (w.pathExists q = true ∨ q ∈ L) := by
  induction L generalizing w with
  | nil => simp
  | cons d L ih =>
    simp only [List.foldl_cons, List.mem_cons]
    by_cases h : w.pathExists d = true
    · rw [if_pos h, ih]
      constructor
      · tauto
      · rintro (hq | rfl | hq) <;> tauto
    · rw [if_neg (by simp [h]), ih]
      rw [pathExists_mkdir]
      tauto

theorem files_make_dirs {w : World} {p : Path} : (make_dirs w p).files = w.files :=
  files_foldl_mkdirs

theorem pathExists_make_dirs {w : World} {p q : Path} :
    (make_dirs w p).pathExists q = true ↔ w.pathExists q = true ∨ q ∈ nePrefixes p :=
  pathExists_foldl_mkdirs

theorem mem_files_removeFile {w : World} {p q : Path} :
    q ∈ (w.removeFile p).files ↔ q ∈ w.files ∧ q ≠ p := by
  simp [World.removeFile, List.mem_filter, bne_iff_ne]

theorem dirs_removeFile {w : World} {p : Path} : (w.removeFile p).dirs = w.dirs := rfl

theorem mem_filter_not_pre {l : List Path} {d q : Path} :
    q ∈ l.filter (fun x => !(d.isPrefixOf x)) ↔ q ∈ l ∧ ¬ (d <+: q) := by
  rw [List.mem_filter]
  constructor
  · rintro ⟨h1, h2⟩
    refine ⟨h1, fun hp => ?_⟩
    rw [List.isPrefixOf_iff_prefix.mpr hp] at h2
    simp at h2
  · rintro ⟨h1, h2⟩
    refine ⟨h1, ?_⟩
    cases hb : d.isPrefixOf q
    · rfl
    · exact absurd (List.isPrefixOf_iff_prefix.mp hb) h2

theorem mem_files_rmtree {w : World} {d q : Path} :
    q ∈ (w.rmtree d).files ↔ q ∈ w.files ∧ ¬ (d <+: q) :=
  mem_filter_not_pre

theorem mem_dirs_rmtree {w : World} {d q : Path} :
    q ∈ (w.rmtree d).dirs ↔ q ∈ w.dirs ∧ ¬ (d <+: q) :=
  mem_filter_not_pre

/-! ### Helper lemmas about `rseq` and traces -/

theorem rseq_trace_left {α β : Type} {x : Res α} {f : α → World → Res β} {e : Event}
    (h : e ∈ x.1) : e ∈ (rseq x f).1 := by
  obtain ⟨t, w, r⟩ := x
  cases r with
  | error err => simpa [rseq] using h
  | ok a => exact List.mem_append_left _ h

theorem evOk_rseq {P : Event → Bool} {α β : Type} {x : Res α} {f : α → World → Res β}
    (hx : evOk P x) (hf : ∀ a w, evOk P (f a w)) : evOk P (rseq x f) := by
  obtain ⟨t, w, r⟩ := x
  cases r with
  | error err => simpa [rseq, evOk] using hx
  | ok a =>
    intro e he
    rcases List.mem_append.mp he with h | h
    · exact hx e h
    · exact hf a w e h

theorem evOk_triple {P : Event → Bool} {α : Type} {t : List Event} {w : World}
    {r : Except Err α} (h : ∀ e ∈ t, P e = true) : evOk P ((t, w, r) : Res α) := h

theorem evOk_rok {P : Event → Bool} {α : Type} {w : World} {a : α} : evOk P (rok w a) := by
  intro e he
  simp [rok] at he

theorem evOk_rerr {P : Event → Bool} {α : Type} {w : World} {er : Err} :
    evOk P (rerr w er : Res α) := by
  intro e he
  simp [rerr] at he

theorem evOk_execute {P : Event → Bool} {env : Env} {k : CmdKind} {c : String} {w : World}
    (hex : P (Event.execCmd k c) = true)
    (hpr : ∀ m, P (Event.printMsg m) = true) : evOk P (execute env k c w) := by
  intro e he
  unfold execute at he
  by_cases h : env.run c = 0
  · rw [if_pos h] at he
    simp at he
    subst he
    exact hex
  · rw [if_neg h] at he
    simp at he
    rcases he with rfl | rfl
    · exact hex
    · exact hpr _

theorem execute_ok {env : Env} {k : CmdKind} {c : String} {w : World} (h : env.run c = 0) :
    execute env k c w = ([Event.execCmd k c], w, Except.ok ()) := by
  unfold execute
  rw [if_pos h]

theorem pathExists_false_writeFile {w : World} {p q : Path}
    (h : w.pathExists q = false) (hne : q ≠ p) : (w.writeFile p).pathExists q = false := by
  rw [Bool.eq_false_iff]
  intro hc
  rcases pathExists_writeFile.mp hc with rfl | hc
  · exact hne rfl
  · rw [h] at hc
    exact Bool.false_ne_true hc

theorem pathExists_false_rename {w : World} {s d q : Path}
    (h : w.pathExists q = false) (hne : q ≠ d) : (w.rename s d).pathExists q = false := by
  rw [Bool.eq_false_iff]
  intro hc
  rcases pathExists_true_iff.mp hc with hc | hc
  · rcases mem_files_rename.mp hc with rfl | ⟨hm, _⟩
    · exact hne rfl
    · exact (pathExists_false_iff.mp h).1 hm
  · rw [dirs_rename] at hc
    exact (pathExists_false_iff.mp h).2 hc

theorem pathExists_false_make_dirs {w : World} {p q : Path}
    (h : w.pathExists q = false) (hne : q ∉ nePrefixes p) :
    (make_dirs w p).pathExists q = false := by
  rw [Bool.eq_false_iff]
  intro hc
  rcases pathExists_make_dirs.mp hc with hc | hc
  · rw [h] at hc
    exact Bool.false_ne_true hc
  · exact hne hc

/-! ### C4: usage errors exit before side effects -/

/-- C4: requesting two or more of hot-reload, release and web, or none of the five modes,
makes the script print a usage message and exit with code 1, leaving the filesystem unchanged
and running no external command, download, or process start. -/
theorem c4_usage_error_exits_first (env : Env) (args : Args) (w : World)
    (h : 1 < numBuildModes args ∨
      (numBuildModes args = 0 ∧ args.update_sokol = false ∧ args.compile_sokol = false)) :
    (runProgram env args w).2.1 = w ∧
      (runProgram env args w).2.2 = Except.error (.exitCode 1) ∧
      (runProgram env args w).1.any isExternalEv = false := by
  rcases h with h | ⟨h0, hu, hc⟩
  · unfold runProgram
    rw [if_pos h]
    refine ⟨rfl, rfl, ?_⟩
    simp [isExternalEv]
  · unfold runProgram
    rw [if_neg (by omega)]
    rw [if_pos (by simp [h0, hu, hc])]
    refine ⟨rfl, rfl, ?_⟩
    simp [isExternalEv]

/-- C4 witness: at a concrete conflicting invocation (hot-reload and release together) the
theorem applies. -/
theorem c4_witness :
    1 < numBuildModes argsConflict ∧
      ((runProgram envLinIdle argsConflict wUnixBase).2.1 = wUnixBase ∧
        (runProgram envLinIdle argsConflict wUnixBase).2.2 = Except.error (.exitCode 1) ∧
        (runProgram envLinIdle argsConflict wUnixBase).1.any isExternalEv = false) :=
  ⟨by decide, c4_usage_error_exits_first envLinIdle argsConflict wUnixBase (Or.inl (by decide))⟩

/-! ### C7: process probe failure handling (corrected) -/

/-- C7 counterexample: on Windows a failing enumeration (nonzero `TASKLIST` status) makes
`process_exists` raise `CalledProcessError` instead of returning `false`; the failure
propagates to the caller, refuting the claim that every platform degrades to "not running". -/
theorem c7_counterexample :
    envWinProbeFail.probe.exitCode ≠ 0 ∧
      process_exists envWinProbeFail (hrExeName Sys.win) ≠ Except.ok false ∧
      process_exists envWinProbeFail (hrExeName Sys.win) = Except.error .calledProcessError := by
  refine ⟨by decide, by decide, by decide⟩

/-- C7 amended: on macOS and Linux an enumeration failure that produces no captured output
yields "not running"; on Windows a nonzero enumeration status raises `CalledProcessError`,
which propagates to the caller instead of being treated as "not running". -/
theorem c7_amended (env : Env) (name : String) :
    (env.sys ≠ .win → env.probe.output = "" → process_exists env name = Except.ok false) ∧
      (env.sys = .win → env.probe.exitCode ≠ 0 →
        process_exists env name = Except.error .calledProcessError) := by
  constructor
  · intro hs ho
    unfold process_exists
    cases h : env.sys with
    | win => exact absurd h hs
    | osx => simp [ho]
    | linux => simp [ho]
  · intro hs hn
    unfold process_exists
    rw [hs]
    rw [if_pos hn]

/-- C7 amended witness: both halves at concrete probes. -/
theorem c7_amended_witness :
    ((envLinIdle.sys ≠ .win ∧ envLinIdle.probe.output = "") ∧
        process_exists envLinIdle "game_hot_reload.bin" = Except.ok false) ∧
      ((envWinProbeFail.sys = .win ∧ envWinProbeFail.probe.exitCode ≠ 0) ∧
        process_exists envWinProbeFail "game_hot_reload.exe" =
          Except.error .calledProcessError) :=
  ⟨⟨⟨by decide, rfl⟩, (c7_amended envLinIdle "game_hot_reload.bin").1 (by decide) rfl⟩,
    ⟨⟨rfl, by decide⟩, (c7_amended envWinProbeFail "game_hot_reload.exe").2 rfl (by decide)⟩⟩

/-! ### C9: failure surfacing in dependency compilation (corrected) -/

/-- C9 counterexample: on Windows with `cl.exe` not on the PATH (and no emcc available
either), `compile_sokol` prints warnings and completes successfully — a missing tool during
dependency compilation that does not cause a nonzero exit, beyond the two degradations the
claim allows. -/
theorem c9_counterexample :
    envWinIdle.which "cl.exe" = false ∧
      compile_sokol envWinIdle argsCompileOnly wSokolOnly =
        ([Event.printMsg clibsStartMsg, Event.printMsg clMissingMsg,
            Event.printMsg emccMissingMsg], wSokolOnly, Except.ok ()) := by
  exact ⟨rfl, rfl⟩

/-- C9 amended: besides probe failures and a missing web toolchain, a missing `cl.exe` on
Windows during dependency compilation also degrades to a printed warning followed by continued
execution (here: the invocation completes successfully having only printed messages). -/
theorem c9_amended (env : Env) (args : Args) (w : World)
    (hsys : env.sys = .win) (hcl : env.which "cl.exe" = false)
    (hems : args.emsdk_path = none) (hemcc : env.which "emcc.bat" = false)
    (hp : w.pathExists SOKOL_PATH = true) :
    compile_sokol env args w =
      ([Event.printMsg clibsStartMsg, Event.printMsg clMissingMsg,
          Event.printMsg emccMissingMsg], w, Except.ok ()) := by
  unfold compile_sokol
  rw [hp]
  simp only [Bool.not_true, Bool.false_eq_true, if_false]
  rw [hsys]
  simp [rseq, hcl, get_emscripten_env_command, hems, hemcc]

/-- C9 amended witness: the concrete Windows host without `cl.exe`. -/
theorem c9_amended_witness :
    (envWinIdle.sys = .win ∧ envWinIdle.which "cl.exe" = false ∧
        argsCompileOnly.emsdk_path = none ∧ envWinIdle.which "emcc.bat" = false ∧
        wSokolOnly.pathExists SOKOL_PATH = true) ∧
      compile_sokol envWinIdle argsCompileOnly wSokolOnly =
        ([Event.printMsg clibsStartMsg, Event.printMsg clMissingMsg,
            Event.printMsg emccMissingMsg], wSokolOnly, Except.ok ()) :=
  ⟨⟨rfl, rfl, rfl, rfl, by decide⟩,
    c9_amended envWinIdle argsCompileOnly wSokolOnly rfl rfl rfl rfl (by decide)⟩

/-! ### C8: the macOS dylib precondition check (corrected) -/

/-- C8 counterexample: a macOS release-mode invocation with `source/sokol/dylib` absent and
the OpenGL toggle unset completes successfully and produces the release executable — there is
no exit-1 and no remediation message, refuting the claimed release-mode check. -/
theorem c8_counterexample :
    wUnixBase.pathExists dylibFolder = false ∧ argsRelease.gl = false ∧
      (runProgram envOsxIdle argsRelease wUnixBase).2.2 = Except.ok () ∧
      (runProgram envOsxIdle argsRelease wUnixBase).2.1.files.contains
        (releaseExePath Sys.osx) = true ∧
      (runProgram envOsxIdle argsRelease wUnixBase).1.any
        (fun e => e == Event.printMsg osxDylibMsg) = false := by
  refine ⟨by decide, rfl, by decide, by decide, by decide⟩

theorem osxDylibStage_missing {env : Env} {w : World}
    (h : w.pathExists dylibFolder = false) :
    osxDylibStage env w = ([Event.printMsg osxDylibMsg], w, Except.error (.exitCode 1)) := by
  unfold osxDylibStage
  rw [h]
  rfl

/-- C8 amended: the missing-dylib check runs in the hot-reload build, not the release build.
On macOS, in a hot-reload build with the launcher not running, every external command
succeeding and `source/sokol/dylib` absent, the build prints the compile-sokol remediation
message and exits with code 1. -/
theorem c8_amended (env : Env) (args : Args) (w : World)
    (hsys : env.sys = .osx) (hprobe : env.probe.output = "") (hrun : ∀ c, env.run c = 0)
    (hdl : w.pathExists dylibFolder = false) :
    (build_hot_reload env args w).2.2 = Except.error (.exitCode 1) ∧
      Event.printMsg osxDylibMsg ∈ (build_hot_reload env args w).1 := by
  have hpe : process_exists env (hrExeName env.sys) = .ok false := by
    unfold process_exists
    rw [hsys]
    simp [hprobe]
  simp only [build_hot_reload]
  generalize hW : (if !(w.pathExists hrOutDir) then make_dirs w hrOutDir else w) = w1
  have h1 : w1.pathExists dylibFolder = false := by
    rw [← hW]
    by_cases hod : w.pathExists hrOutDir = true
    · simp only [hod, Bool.not_true, Bool.false_eq_true, if_false]
      exact hdl
    · have hod' : w.pathExists hrOutDir = false := by
        cases h : w.pathExists hrOutDir
        · rfl
        · exact absurd h hod
      simp only [hod', Bool.not_false, if_true]
      exact pathExists_false_make_dirs hdl (by decide)
  rw [hpe]
  simp only [hsys]
  rw [if_neg (by decide : ¬ (Sys.osx = Sys.win))]
  simp only [rseq, rok]
  rw [execute_ok (hrun _)]
  simp only [rseq]
  rw [if_pos (by decide : Sys.osx ≠ Sys.win)]
  simp only [rseq]
  rw [execute_ok (hrun _)]
  simp only [rseq, Bool.false_eq_true, if_false,
    if_neg (show ¬ (Sys.osx = Sys.win) from by decide),
    if_pos (show Sys.osx = Sys.osx from rfl)]
  have h5 : ((((w1.writeFile (dllStagingPath Sys.osx)).rename (dllStagingPath Sys.osx)
      (dllFinalPath Sys.osx)).writeFile [hrExeName Sys.osx]).pathExists dylibFolder) = false := by
    refine pathExists_false_writeFile (pathExists_false_rename
      (pathExists_false_writeFile h1 (by decide)) (by decide)) (by decide)
  rw [osxDylibStage_missing h5]
  simp [rseq]

/-- C8 amended witness: the concrete macOS host with the dylib folder absent. -/
theorem c8_amended_witness :
    (envOsxIdle.sys = .osx ∧ envOsxIdle.probe.output = "" ∧
        wUnixBase.pathExists dylibFolder = false) ∧
      ((build_hot_reload envOsxIdle argsHotReload wUnixBase).2.2 =
          Except.error (.exitCode 1) ∧
        Event.printMsg osxDylibMsg ∈ (build_hot_reload envOsxIdle argsHotReload wUnixBase).1) :=
  ⟨⟨rfl, rfl, by decide⟩,
    c8_amended envOsxIdle argsHotReload wUnixBase rfl rfl (fun _ => rfl) (by decide)⟩

/-! ### Trace-predicate lemmas for each fragment -/

theorem execute_fail {env : Env} {k : CmdKind} {c : String} {w : World}
    (h : ¬ env.run c = 0) :
    execute env k c w = ([Event.execCmd k c, Event.printMsg ("Failed running:" ++ c)], w,
      Except.error (.exitCode 1)) := by
  unfold execute
  rw [if_neg h]

theorem evOk_of_trace_nil {P : Event → Bool} {α : Type} {x : Res α} (h : x.1 = []) :
    evOk P x := by
  intro e he
  rw [h] at he
  cases he

theorem evOk_rseq_strong {P : Event → Bool} {α β : Type} {x : Res α} {f : α → World → Res β}
    (hx : evOk P x) (hf : ∀ a, x.2.2 = Except.ok a → evOk P (f a x.2.1)) :
    evOk P (rseq x f) := by
  obtain ⟨t, w, r⟩ := x
  cases r with
  | error err => simpa [rseq, evOk] using hx
  | ok a =>
    intro e he
    rcases List.mem_append.mp he with h | h
    · exact hx e h
    · exact hf a rfl e h

theorem winPdbStage_trace (r : Bool) (w : World) : (winPdbStage r w).1 = [] := by
  unfold winPdbStage
  dsimp only
  repeat' split
  all_goals rfl

theorem evOk_update_bindings {P : Event → Bool} (env : Env) (w : World)
    (hpr : ∀ m, P (.printMsg m) = true) (hdl : ∀ u d, P (.download u d) = true)
    (hzip : ∀ z d, P (.extractZip z d) = true) :
    evOk P (update_sokol_bindings env w) := by
  unfold update_sokol_bindings
  apply evOk_rseq
  · intro e he
    simp only [List.mem_cons, List.not_mem_nil, or_false] at he
    rcases he with rfl | rfl
    · exact hpr _
    · exact hdl _ _
  · intro a w'
    apply evOk_rseq
    · intro e he
      simp only [List.mem_singleton] at he
      subst he
      exact hzip _ _
    · intro a w''
      exact evOk_rok

theorem evOk_update_shdc {P : Event → Bool} (env : Env) (w : World)
    (hpr : ∀ m, P (.printMsg m) = true) (hdl : ∀ u d, P (.download u d) = true)
    (hzip : ∀ z d, P (.extractZip z d) = true)
    (hchm : ∀ c, P (.execCmd .chmodCmd c) = true) :
    evOk P (update_sokol_shdc env w) := by
  unfold update_sokol_shdc
  apply evOk_rseq
  · intro e he
    simp only [List.mem_cons, List.not_mem_nil, or_false] at he
    rcases he with rfl | rfl
    · exact hpr _
    · exact hdl _ _
  · intro a w'
    apply evOk_rseq
    · intro e he
      simp only [List.mem_singleton] at he
      subst he
      exact hzip _ _
    · intro a w''
      apply evOk_rseq
      · split
        · exact evOk_rseq (evOk_execute (hchm _) hpr) (fun _ _ => evOk_execute (hchm _) hpr)
        · exact evOk_rok
      · intro a w₃
        exact evOk_rok

theorem evOk_update_sokol {P : Event → Bool} (env : Env) (w : World)
    (hpr : ∀ m, P (.printMsg m) = true) (hdl : ∀ u d, P (.download u d) = true)
    (hzip : ∀ z d, P (.extractZip z d) = true)
    (hchm : ∀ c, P (.execCmd .chmodCmd c) = true) :
    evOk P (update_sokol env w) := by
  unfold update_sokol
  exact evOk_rseq (evOk_update_bindings env w hpr hdl hzip)
    (fun _ w' => evOk_update_shdc env w' hpr hdl hzip hchm)

theorem evOk_compileWasmUnix {P : Event → Bool} (env : Env) (args : Args) (w : World)
    (hpr : ∀ m, P (.printMsg m) = true)
    (hcl : ∀ c, P (.execCmd .clibs c) = true) :
    evOk P (compileWasmUnix env args w) := by
  unfold compileWasmUnix
  split
  · exact evOk_execute (hcl _) hpr
  · split
    · exact evOk_execute (hcl _) hpr
    · intro e he
      simp only [List.mem_singleton] at he
      subst he
      exact hpr _

theorem evOk_compile_sokol {P : Event → Bool} (env : Env) (args : Args) (w : World)
    (hpr : ∀ m, P (.printMsg m) = true)
    (hcl : ∀ c, P (.execCmd .clibs c) = true) :
    evOk P (compile_sokol env args w) := by
  unfold compile_sokol
  split
  · exact evOk_rerr
  · apply evOk_rseq
    · intro e he
      simp only [List.mem_singleton] at he
      subst he
      exact hpr _
    · intro a w'
      split
      · apply evOk_rseq
        · split
          · exact evOk_execute (hcl _) hpr
          · intro e he
            simp only [List.mem_singleton] at he
            subst he
            exact hpr _
        · intro a w''
          split
          · exact evOk_execute (hcl _) hpr
          · split
            · exact evOk_execute (hcl _) hpr
            · intro e he
              simp only [List.mem_singleton] at he
              subst he
              exact hpr _
      · exact evOk_rseq (evOk_execute (hcl _) hpr)
          (fun _ w'' => evOk_compileWasmUnix env args w'' hpr hcl)
      · exact evOk_rseq (evOk_execute (hcl _) hpr)
          (fun _ w'' => evOk_rseq (evOk_execute (hcl _) hpr)
            (fun _ w₃ => evOk_compileWasmUnix env args w₃ hpr hcl))

theorem evOk_compileShaders {P : Event → Bool} (env : Env) (shdc : Path) (langs : String)
    (hex : ∀ c, P (.execCmd .shaderCompile c) = true)
    (hpr : ∀ m, P (.printMsg m) = true) :
    ∀ (L : List Path) (w : World), evOk P (compileShaders env shdc langs L w) := by
  intro L
  induction L with
  | nil =>
    intro w
    exact evOk_rok
  | cons s rest ih =>
    intro w
    unfold compileShaders
    exact evOk_rseq (evOk_execute (hex _) hpr) (fun _ w' => ih _)

theorem evOk_build_shaders {P : Event → Bool} (env : Env) (args : Args) (w : World)
    (hex : ∀ c, P (.execCmd .shaderCompile c) = true)
    (hpr : ∀ m, P (.printMsg m) = true) :
    evOk P (build_shaders env args w) := by
  unfold build_shaders
  apply evOk_rseq
  · intro e he
    simp only [List.mem_singleton] at he
    subst he
    exact hpr _
  · intro a w'
    apply evOk_rseq
    · unfold get_shader_compiler
      dsimp only
      split
      · exact evOk_rok
      · exact evOk_rerr
    · intro p w''
      exact evOk_compileShaders env p _ hex hpr _ _

theorem evOk_winSokolDllStage {P : Event → Bool} (args : Args) (w : World)
    (hpr : ∀ m, P (.printMsg m) = true) :
    evOk P (winSokolDllStage args w) := by
  unfold winSokolDllStage
  dsimp only
  repeat' split
  all_goals first
    | exact evOk_rok
    | (intro e he
       simp only [List.mem_singleton] at he
       subst he
       exact hpr _)

theorem dylib_fold_trace {P : Event → Bool} (env : Env)
    (hpr : ∀ m, P (.printMsg m) = true) :
    ∀ (L : List String) (t : List Event) (w : World), (∀ e ∈ t, P e = true) →
      ∀ e ∈ (L.foldl (fun (acc : List Event × World) d =>
        let r := copyDylib env acc.2 d
        (acc.1 ++ r.1, r.2)) (t, w)).1, P e = true := by
  intro L
  induction L with
  | nil =>
    intro t w ht e he
    exact ht e he
  | cons d rest ih =>
    intro t w ht e he
    refine ih _ _ ?_ e he
    intro e' he'
    rcases List.mem_append.mp he' with h | h
    · exact ht e' h
    · unfold copyDylib at h
      dsimp only at h
      repeat' split at h
      all_goals try (dsimp only at h)
      all_goals try (simp only [List.mem_singleton, List.not_mem_nil] at h)
      all_goals (subst h; exact hpr _)

theorem evOk_osxDylibStage {P : Event → Bool} (env : Env) (w : World)
    (hpr : ∀ m, P (.printMsg m) = true) :
    evOk P (osxDylibStage env w) := by
  unfold osxDylibStage
  split
  · intro e he
    simp only [List.mem_singleton] at he
    subst he
    exact hpr _
  · intro e he
    exact dylib_fold_trace env hpr _ [] _ (fun e' he' => absurd he' (List.not_mem_nil e')) e he

theorem evOk_build_hot_reload {P : Event → Bool} (env : Env) (args : Args) (w : World)
    (hpr : ∀ m, P (.printMsg m) = true)
    (hex : ∀ k c, P (.execCmd k c) = true)
    (hren : ∀ s d, P (.renameFile s d) = true) :
    evOk P (build_hot_reload env args w) := by
  unfold build_hot_reload
  dsimp only
  generalize (if (!w.pathExists hrOutDir) = true then make_dirs w hrOutDir else w) = w1
  split
  · exact evOk_rerr
  · apply evOk_rseq
    · split
      · exact evOk_rseq (evOk_of_trace_nil (winPdbStage_trace _ _)) (fun _ _ => evOk_rok)
      · exact evOk_rok
    · intro pdbNum w'
      apply evOk_rseq
      · intro e he
        simp only [List.mem_singleton] at he
        subst he
        exact hpr _
      · intro a w''
        apply evOk_rseq
        · exact evOk_execute (hex _ _) hpr
        · intro a w₃
          apply evOk_rseq
          · split
            · intro e he
              simp only [List.mem_singleton] at he
              subst he
              exact hren _ _
            · exact evOk_rok
          · intro a w₄
            split
            · intro e he
              simp only [List.mem_singleton] at he
              subst he
              exact hpr _
            · apply evOk_rseq
              · intro e he
                simp only [List.mem_singleton] at he
                subst he
                exact hpr _
              · intro a w₅
                apply evOk_rseq
                · exact evOk_execute (hex _ _) hpr
                · intro a w₆
                  apply evOk_rseq
                  · split
                    · exact evOk_winSokolDllStage args _ hpr
                    · split
                      · exact evOk_osxDylibStage env _ hpr
                      · exact evOk_rok
                  · intro a w₇
                    exact evOk_of_trace_nil rfl

theorem evOk_build_release {P : Event → Bool} (env : Env) (args : Args) (w : World)
    (hpr : ∀ m, P (.printMsg m) = true)
    (hex : ∀ k c, P (.execCmd k c) = true) :
    evOk P (build_release env args w) := by
  unfold build_release
  apply evOk_rseq
  · intro e he
    simp only [List.mem_singleton] at he
    subst he
    exact hpr _
  · intro a w'
    apply evOk_rseq
    · exact evOk_execute (hex _ _) hpr
    · intro a w''
      dsimp only
      split
      · exact evOk_of_trace_nil rfl
      · exact evOk_rerr

theorem evOk_build_web {P : Event → Bool} (env : Env) (args : Args) (w : World)
    (hpr : ∀ m, P (.printMsg m) = true)
    (hex : ∀ k c, P (.execCmd k c) = true) :
    evOk P (build_web env args w) := by
  unfold build_web
  apply evOk_rseq
  · intro e he
    simp only [List.mem_singleton] at he
    subst he
    exact hpr _
  · intro a w'
    apply evOk_rseq
    · exact evOk_execute (hex _ _) hpr
    · intro a w''
      apply evOk_rseq
      · split
        · exact evOk_rok
        · split
          · exact evOk_rok
          · intro e he
            simp only [List.mem_singleton] at he
            subst he
            exact hpr _
      · intro a w₃
        apply evOk_rseq
        · intro e he
          simp only [List.mem_singleton] at he
          subst he
          exact hpr _
        · intro a w₄
          apply evOk_rseq
          · exact evOk_execute (hex _ _) hpr
          · intro a w₅
            exact evOk_rok

/-! ### C2: a running launcher means dll-only build and nothing to launch -/

theorem rseq_execute {β : Type} {env : Env} {k : CmdKind} {c : String} {w : World}
    {f : Unit → World → Res β} :
    rseq (execute env k c w) f =
      if env.run c = 0 then
        ([Event.execCmd k c] ++ (f () w).1, (f () w).2.1, (f () w).2.2)
      else ([Event.execCmd k c, Event.printMsg ("Failed running:" ++ c)], w,
        Except.error (.exitCode 1)) := by
  by_cases h : env.run c = 0
  · rw [execute_ok h, if_pos h]
    rfl
  · rw [execute_fail h, if_neg h]
    rfl

set_option maxHeartbeats 2000000 in
theorem hr_running_spec (env : Env) (args : Args) (w : World)
    (hpe : process_exists env (hrExeName env.sys) = Except.ok true) :
    launchEmptyB (build_hot_reload env args w).2.2 = true ∧
      ((build_hot_reload env args w).1.all
        (fun e => !(isOdinExeBuild e) && !(isPopenEv e))) = true ∧
      ((odinKindsOf (build_hot_reload env args w).1).all
        (fun k => match k with | CmdKind.dllBuild _ => true | _ => false)) = true ∧
      (resultOkB (build_hot_reload env args w).2.2 = true →
        (odinKindsOf (build_hot_reload env args w).1).length = 1) := by
  unfold build_hot_reload
  dsimp only
  rw [hpe]
  dsimp only
  generalize (if (!w.pathExists hrOutDir) = true then make_dirs w hrOutDir else w) = w1
  unfold winPdbStage
  dsimp only
  simp only [rseq_execute]
  refine ⟨?_, ?_, ?_, ?_⟩ <;> (repeat' split)
  all_goals
    try (simp_all [rseq, rok, rerr, launchEmptyB, odinKindsOf, resultOkB, isOdinExeBuild,
      isPopenEv])
  all_goals split_ifs <;> simp

/-- C2: when the launcher process is reported running at the start of a hot-reload build
(web and release modes not selected), the whole run invokes no launcher-executable compile
and launches no process; the hot-reload build returns the empty "nothing to launch" path
whenever it succeeds, and its compiler invocations are dll builds only — exactly one of them
on success. -/
theorem c2_running_skips_launcher (env : Env) (args : Args) (w : World)
    (hpe : process_exists env (hrExeName env.sys) = Except.ok true)
    (hweb : args.web = false) (hrel : args.release = false) :
    ((runProgram env args w).1.all (fun e => !(isOdinExeBuild e) && !(isPopenEv e))) = true ∧
      launchEmptyB (build_hot_reload env args w).2.2 = true ∧
      ((odinKindsOf (build_hot_reload env args w).1).all
        (fun k => match k with | CmdKind.dllBuild _ => true | _ => false)) = true ∧
      oneOdinOnOk (build_hot_reload env args w) = true := by
  obtain ⟨h2, h3, h4, h5⟩ := hr_running_spec env args w hpe
  refine ⟨?_, h2, h4, ?_⟩
  · apply List.all_eq_true.mpr
    unfold runProgram
    split
    · intro e he
      simp only [List.mem_singleton] at he
      subst he
      rfl
    · split
      · intro e he
        simp only [List.mem_singleton] at he
        subst he
        rfl
      · unfold mainRun
        dsimp only
        apply evOk_rseq
        · split
          · exact evOk_rseq
              (evOk_update_sokol _ _ (fun _ => rfl) (fun _ _ => rfl) (fun _ _ => rfl)
                (fun _ => rfl))
              (fun _ w' => evOk_compile_sokol _ _ _ (fun _ => rfl) (fun _ => rfl))
          · split
            · exact evOk_compile_sokol _ _ _ (fun _ => rfl) (fun _ => rfl)
            · exact evOk_rok
        · intro a w'
          apply evOk_rseq
          · split
            · exact evOk_build_shaders _ _ _ (fun _ => rfl) (fun _ => rfl)
            · exact evOk_rok
          · intro a w''
            simp only [hweb, hrel, Bool.not_false, Bool.false_eq_true, if_false,
              if_pos (rfl : (true : Bool) = true)]
            apply evOk_rseq_strong
            · have := (hr_running_spec env args w'' hpe).2.1
              exact List.all_eq_true.mp this
            · intro a ha
              have hae : a = "" := by
                have hle := (hr_running_spec env args w'' hpe).1
                rw [ha] at hle
                have : (a == "") = true := hle
                exact eq_of_beq this
              subst hae
              simp only [bne_self_eq_false, Bool.false_and, Bool.false_eq_true, if_false]
              exact evOk_rok
  · unfold oneOdinOnOk
    cases hres : (build_hot_reload env args w).2.2 with
    | error e => rfl
    | ok s =>
      have hok : resultOkB (build_hot_reload env args w).2.2 = true := by
        rw [hres]
        rfl
      have hlen := h5 hok
      simp [hlen]

/-- C2 witness: a concrete Windows host reporting the launcher as running. -/
theorem c2_witness :
    (process_exists envWinRunning (hrExeName envWinRunning.sys) = Except.ok true ∧
        argsHotReload.web = false ∧ argsHotReload.release = false) ∧
      (((runProgram envWinRunning argsHotReload wWinBase).1.all
          (fun e => !(isOdinExeBuild e) && !(isPopenEv e))) = true ∧
        launchEmptyB (build_hot_reload envWinRunning argsHotReload wWinBase).2.2 = true ∧
        ((odinKindsOf (build_hot_reload envWinRunning argsHotReload wWinBase).1).all
          (fun k => match k with | CmdKind.dllBuild _ => true | _ => false)) = true ∧
        oneOdinOnOk (build_hot_reload envWinRunning argsHotReload wWinBase) = true) :=
  ⟨⟨by decide, rfl, rfl⟩,
    c2_running_skips_launcher envWinRunning argsHotReload wWinBase (by decide) rfl rfl⟩

/-! ### C5: bootstrap trigger condition -/

theorem contains_true_of_mem {α : Type} [BEq α] [LawfulBEq α] {l : List α} {a : α}
    (h : a ∈ l) : l.contains a = true :=
  List.elem_iff.mpr h

theorem rseq_ok_inv {α β : Type} {x : Res α} {f : α → World → Res β}
    (h : resultOkB (rseq x f).2.2 = true) :
    ∃ a, x.2.2 = Except.ok a ∧ resultOkB (f a x.2.1).2.2 = true ∧
      (rseq x f).1 = x.1 ++ (f a x.2.1).1 := by
  obtain ⟨t, w, r⟩ := x
  cases r with
  | error e => simp [rseq, resultOkB] at h
  | ok a => exact ⟨a, rfl, h, rfl⟩

theorem runProgram_valid (env : Env) (args : Args) (w : World)
    (hv : validArgsB args = true) : runProgram env args w = mainRun env args w := by
  unfold validArgsB at hv
  rw [Bool.and_eq_true] at hv
  obtain ⟨hv1, hv2⟩ := hv
  unfold runProgram
  rw [if_neg ?h1, if_neg ?h2]
  case h1 =>
    intro hgt
    rw [decide_eq_true hgt] at hv1
    simp at hv1
  case h2 =>
    intro hcond
    rw [hcond] at hv2
    simp at hv2

theorem dl1_mem_update (env : Env) (w : World) :
    Event.download SOKOL_ZIP_URL "sokol-temp.zip" ∈ (update_sokol env w).1 := by
  unfold update_sokol
  apply rseq_trace_left
  unfold update_sokol_bindings
  apply rseq_trace_left
  simp

theorem dl2_mem_update (env : Env) (w : World)
    (h : resultOkB (update_sokol env w).2.2 = true) :
    Event.download TOOLS_ZIP_URL "sokol-tools-temp.zip" ∈ (update_sokol env w).1 := by
  unfold update_sokol at *
  obtain ⟨a, hb, hsh, htr⟩ := rseq_ok_inv h
  rw [htr]
  apply List.mem_append_right
  unfold update_sokol_shdc
  apply rseq_trace_left
  simp

theorem clibs_start_mem (env : Env) (args : Args) (w : World)
    (h : resultOkB (compile_sokol env args w).2.2 = true) :
    Event.printMsg clibsStartMsg ∈ (compile_sokol env args w).1 := by
  by_cases hp : w.pathExists SOKOL_PATH = true
  · unfold compile_sokol
    rw [if_neg (by simp [hp])]
    apply rseq_trace_left
    simp
  · exfalso
    unfold compile_sokol at h
    rw [if_pos (by simp [Bool.eq_false_iff.mpr fun hc => hp hc])] at h
    simp [rerr, resultOkB] at h

theorem c5_mem_of_ok (env : Env) (args : Args) (w : World)
    (hc : bootstrapCond args w = true)
    (hok : resultOkB (mainRun env args w).2.2 = true) :
    Event.download SOKOL_ZIP_URL "sokol-temp.zip" ∈ (mainRun env args w).1 ∧
      Event.download TOOLS_ZIP_URL "sokol-tools-temp.zip" ∈ (mainRun env args w).1 ∧
      Event.printMsg clibsStartMsg ∈ (mainRun env args w).1 := by
  unfold bootstrapCond at hc
  unfold mainRun at hok ⊢
  dsimp only at hok ⊢
  rw [if_pos hc] at hok ⊢
  obtain ⟨a1, hB, hK, htr⟩ := rseq_ok_inv hok
  have hBok : resultOkB (rseq (update_sokol env w)
      (fun _ w => compile_sokol env args w)).2.2 = true := by
    rw [hB]
    rfl
  obtain ⟨a2, hU, hC, htr2⟩ := rseq_ok_inv hBok
  have hUok : resultOkB (update_sokol env w).2.2 = true := by
    rw [hU]
    rfl
  rw [htr, htr2]
  refine ⟨?_, ?_, ?_⟩
  · exact List.mem_append_left _ (List.mem_append_left _ (dl1_mem_update env w))
  · exact List.mem_append_left _ (List.mem_append_left _ (dl2_mem_update env w hUok))
  · exact List.mem_append_left _ (List.mem_append_right _ (clibs_start_mem env args _ hC))

/-- C5: with valid arguments, the dependency bootstrap runs (a bundle download happens)
exactly when it is explicitly requested or when both dependency directories are absent; and
whenever the bootstrap condition holds and the invocation succeeds, both bundles were
downloaded and dependency compilation was started. -/
theorem c5_bootstrap_exactly_when (env : Env) (args : Args) (w : World)
    (hv : validArgsB args = true) :
    ((runProgram env args w).1.any isDownloadEv = bootstrapCond args w) ∧
      (!(bootstrapCond args w) || !(resultOkB (runProgram env args w).2.2) ||
        ((runProgram env args w).1.contains (Event.download SOKOL_ZIP_URL "sokol-temp.zip") &&
          (runProgram env args w).1.contains
            (Event.download TOOLS_ZIP_URL "sokol-tools-temp.zip") &&
          (runProgram env args w).1.contains (Event.printMsg clibsStartMsg))) = true := by
  rw [runProgram_valid env args w hv]
  constructor
  · cases hc : bootstrapCond args w with
    | true =>
      apply List.any_eq_true.mpr
      refine ⟨Event.download SOKOL_ZIP_URL "sokol-temp.zip", ?_, rfl⟩
      unfold mainRun
      dsimp only
      apply rseq_trace_left
      unfold bootstrapCond at hc
      rw [if_pos hc]
      apply rseq_trace_left
      exact dl1_mem_update env w
    | false =>
      have hno : evOk (fun e => !(isDownloadEv e)) (mainRun env args w) := by
        unfold mainRun
        dsimp only
        apply evOk_rseq
        · unfold bootstrapCond at hc
          rw [if_neg (by rw [hc]; simp)]
          split
          · exact evOk_compile_sokol _ _ _ (fun _ => rfl) (fun _ => rfl)
          · exact evOk_rok
        · intro a w'
          apply evOk_rseq
          · split
            · exact evOk_build_shaders _ _ _ (fun _ => rfl) (fun _ => rfl)
            · exact evOk_rok
          · intro a w''
            split
            · apply evOk_rseq
              · split
                · exact evOk_build_release _ _ _ (fun _ => rfl) (fun _ _ => rfl)
                · exact evOk_build_hot_reload _ _ _ (fun _ => rfl) (fun _ _ => rfl)
                    (fun _ _ => rfl)
              · intro a w₃
                split
                · intro e he
                  simp only [List.mem_cons, List.not_mem_nil, or_false] at he
                  rcases he with rfl | rfl <;> rfl
                · exact evOk_rok
            · exact evOk_build_web _ _ _ (fun _ => rfl) (fun _ _ => rfl)
      cases hAny : (mainRun env args w).1.any isDownloadEv with
      | false => rfl
      | true =>
        exfalso
        obtain ⟨e, he, hde⟩ := List.any_eq_true.mp hAny
        have hx := hno e he
        simp [hde] at hx
  · cases hc : bootstrapCond args w with
    | false => rfl
    | true =>
      cases hok : resultOkB (mainRun env args w).2.2 with
      | false => rfl
      | true =>
        have hmem := c5_mem_of_ok env args w hc hok
        rw [contains_true_of_mem hmem.1, contains_true_of_mem hmem.2.1,
          contains_true_of_mem hmem.2.2]
        rfl

/-- C5 witness: a fresh checkout (both dependency directories absent) with a hot-reload
invocation. -/
theorem c5_witness :
    validArgsB argsHotReload = true ∧
      (((runProgram envWinIdle argsHotReload wRelSeed).1.any isDownloadEv =
          bootstrapCond argsHotReload wRelSeed) ∧
        (!(bootstrapCond argsHotReload wRelSeed) ||
          !(resultOkB (runProgram envWinIdle argsHotReload wRelSeed).2.2) ||
          ((runProgram envWinIdle argsHotReload wRelSeed).1.contains
              (Event.download SOKOL_ZIP_URL "sokol-temp.zip") &&
            (runProgram envWinIdle argsHotReload wRelSeed).1.contains
              (Event.download TOOLS_ZIP_URL "sokol-tools-temp.zip") &&
            (runProgram envWinIdle argsHotReload wRelSeed).1.contains
              (Event.printMsg clibsStartMsg))) = true) :=
  ⟨rfl, c5_bootstrap_exactly_when envWinIdle argsHotReload wRelSeed rfl⟩

/-! ### C3: staging path and rename-based publishing -/

theorem pathExists_rename_src {w : World} {s d : Path} (hne : s ≠ d) (hd : s ∉ w.dirs) :
    (w.rename s d).pathExists s = false := by
  rw [Bool.eq_false_iff]
  intro hc
  rcases pathExists_true_iff.mp hc with hc | hc
  · rcases mem_files_rename.mp hc with h | ⟨_, hs, _⟩
    · exact hne h
    · exact hs rfl
  · rw [dirs_rename] at hc
    exact hd hc

theorem pathExists_rename_dst {w : World} {s d : Path} :
    (w.rename s d).pathExists d = true :=
  pathExists_true_iff.mpr (Or.inl (mem_files_rename.mpr (Or.inl rfl)))

theorem mem_dirs_foldl_mkdirs {L : List Path} {w : World} {q : Path}
    (h : q ∈ (L.foldl (fun w p => if w.pathExists p then w else w.mkdir p) w).dirs) :
    q ∈ w.dirs ∨ q ∈ L := by
  induction L generalizing w with
  | nil => exact Or.inl h
  | cons d L ih =>
    simp only [List.foldl_cons] at h
    by_cases hd : w.pathExists d = true
    · rw [if_pos hd] at h
      rcases ih h with h | h
      · exact Or.inl h
      · exact Or.inr (List.mem_cons_of_mem _ h)
    · rw [if_neg (by simp [hd])] at h
      rcases ih h with h | h
      · rcases mem_dirs_mkdir.mp h with rfl | h
        · exact Or.inr (List.mem_cons_self _ _)
        · exact Or.inl h
      · exact Or.inr (List.mem_cons_of_mem _ h)

theorem mem_dirs_make_dirs {w : World} {p q : Path} (h : q ∈ (make_dirs w p).dirs) :
    q ∈ w.dirs ∨ q ∈ nePrefixes p :=
  mem_dirs_foldl_mkdirs h

theorem dylib_fold_world (env : Env) :
    ∀ (L : List String) (t : List Event) (w : World) (q : Path), q.length ≠ 2 →
      ((L.foldl (fun (acc : List Event × World) d =>
        (acc.1 ++ (copyDylib env acc.2 d).1, (copyDylib env acc.2 d).2)) (t, w)).2).pathExists q =
        w.pathExists q := by
  intro L
  induction L with
  | nil =>
    intro t w q hq
    rfl
  | cons d rest ih =>
    intro t w q hq
    have hwf : (w.writeFile ["dylib", d]).pathExists q = w.pathExists q := by
      cases hb : w.pathExists q with
      | true => exact pathExists_writeFile.mpr (Or.inr hb)
      | false =>
        refine pathExists_false_writeFile hb ?_
        intro hqe
        rw [hqe] at hq
        exact hq rfl
    have hcd : (copyDylib env w d).2.pathExists q = w.pathExists q := by
      unfold copyDylib
      dsimp only
      repeat' split
      all_goals first
        | exact hwf
        | rfl
    rw [List.foldl_cons]
    dsimp only
    rw [ih (t ++ (copyDylib env w d).1) (copyDylib env w d).2 q hq, hcd]

theorem osxDylibStage_world (env : Env) (w : World) (q : Path)
    (hq2 : q.length ≠ 2) (hq1 : q ≠ ["dylib"]) :
    (osxDylibStage env w).2.1.pathExists q = w.pathExists q := by
  unfold osxDylibStage
  dsimp only
  split
  · rfl
  · rw [dylib_fold_world env _ _ _ q hq2]
    by_cases hd : w.pathExists ["dylib"] = true
    · rw [if_neg (show ¬ ((!w.pathExists ["dylib"]) = true) by simp [hd])]
    · have hdf : w.pathExists ["dylib"] = false := by
        cases hb : w.pathExists ["dylib"]
        · rfl
        · exact absurd hb hd
      rw [if_pos (show (!w.pathExists ["dylib"]) = true by simp [hdf])]
      cases hb : w.pathExists q with
      | true => exact pathExists_mkdir.mpr (Or.inr hb)
      | false =>
        rw [Bool.eq_false_iff]
        intro hc
        rcases pathExists_mkdir.mp hc with rfl | hc
        · exact hq1 rfl
        · rw [hb] at hc
          exact Bool.false_ne_true hc

theorem rseq_rok {α β : Type} {w : World} {a : α} {f : α → World → Res β} :
    rseq (rok w a) f = ((f a w).1, (f a w).2.1, (f a w).2.2) :=
  rfl

theorem rseq_triple_ok {α β : Type} {t : List Event} {w : World} {a : α}
    {f : α → World → Res β} :
    rseq ((t, w, Except.ok a) : Res α) f = (t ++ (f a w).1, (f a w).2.1, (f a w).2.2) :=
  rfl

theorem rseq_triple_err {α β : Type} {t : List Event} {w : World} {e : Err}
    {f : α → World → Res β} :
    rseq ((t, w, Except.error e) : Res α) f = (t, w, Except.error e) :=
  rfl

theorem hr_win_no_rename (env : Env) (args : Args) (w : World) (hsys : env.sys = Sys.win) :
    evOk (fun e => !(isRenameEv e)) (build_hot_reload env args w) := by
  unfold build_hot_reload
  dsimp only
  generalize (if (!w.pathExists hrOutDir) = true then make_dirs w hrOutDir else w) = w1
  simp only [hsys]
  simp only [if_pos (rfl : (Sys.win : Sys) = Sys.win),
    if_neg (show ¬ ((Sys.win : Sys) ≠ Sys.win) from by decide)]
  split
  · exact evOk_rerr
  · apply evOk_rseq
    · exact evOk_rseq (evOk_of_trace_nil (winPdbStage_trace _ _)) (fun _ _ => evOk_rok)
    · intro pdbNum w'
      apply evOk_rseq
      · intro e he
        simp only [List.mem_singleton] at he
        subst he
        rfl
      · intro a w''
        apply evOk_rseq
        · exact evOk_execute rfl (fun _ => rfl)
        · intro a w₃
          apply evOk_rseq
          · exact evOk_rok
          · intro a w₄
            split
            · intro e he
              simp only [List.mem_singleton] at he
              subst he
              rfl
            · apply evOk_rseq
              · intro e he
                simp only [List.mem_singleton] at he
                subst he
                rfl
              · intro a w₅
                apply evOk_rseq
                · exact evOk_execute rfl (fun _ => rfl)
                · intro a w₆
                  apply evOk_rseq
                  · exact evOk_winSokolDllStage args _ (fun _ => rfl)
                  · intro a w₇
                    exact evOk_of_trace_nil rfl

theorem hr_nonwin_publish (env : Env) (args : Args) (w : World)
    (hsys : env.sys ≠ Sys.win) (hdir : dllStagingPath env.sys ∉ w.dirs) :
    stagingGoneOnOk env.sys (build_hot_reload env args w) = true := by
  have hne : dllStagingPath env.sys ≠ dllFinalPath env.sys := by
    cases h : env.sys with
    | win => exact absurd h hsys
    | osx => decide
    | linux => decide
  have hlen : (dllStagingPath env.sys).length ≠ 2 := by
    cases env.sys <;> decide
  have hflen : (dllFinalPath env.sys).length ≠ 2 := by
    cases env.sys <;> decide
  have hsdy : dllStagingPath env.sys ≠ (["dylib"] : Path) := by
    cases env.sys <;> decide
  have hfdy : dllFinalPath env.sys ≠ (["dylib"] : Path) := by
    cases env.sys <;> decide
  have hsexe : dllStagingPath env.sys ≠ ([hrExeName env.sys] : Path) := by
    cases env.sys <;> decide
  unfold build_hot_reload
  dsimp only
  generalize hW : (if (!w.pathExists hrOutDir) = true then make_dirs w hrOutDir else w) = w1
  have hd1 : dllStagingPath env.sys ∉ w1.dirs := by
    rw [← hW]
    by_cases hod : w.pathExists hrOutDir = true
    · simpa [hod] using hdir
    · have hodf : w.pathExists hrOutDir = false := by
        cases hb : w.pathExists hrOutDir
        · rfl
        · exact absurd hb hod
      rw [if_pos (show (!w.pathExists hrOutDir) = true by simp [hodf])]
      intro hmem
      rcases mem_dirs_make_dirs hmem with h | h
      · exact hdir h
      · revert h
        cases env.sys <;> decide
  have e1 : ((w1.writeFile (dllStagingPath env.sys)).rename (dllStagingPath env.sys)
      (dllFinalPath env.sys)).pathExists (dllStagingPath env.sys) = false := by
    refine pathExists_rename_src hne ?_
    rw [dirs_writeFile]
    exact hd1
  have e2 : ((w1.writeFile (dllStagingPath env.sys)).rename (dllStagingPath env.sys)
      (dllFinalPath env.sys)).pathExists (dllFinalPath env.sys) = true :=
    pathExists_rename_dst
  have e1' : (((w1.writeFile (dllStagingPath env.sys)).rename (dllStagingPath env.sys)
      (dllFinalPath env.sys)).writeFile [hrExeName env.sys]).pathExists
      (dllStagingPath env.sys) = false :=
    pathExists_false_writeFile e1 hsexe
  have e2' : (((w1.writeFile (dllStagingPath env.sys)).rename (dllStagingPath env.sys)
      (dllFinalPath env.sys)).writeFile [hrExeName env.sys]).pathExists
      (dllFinalPath env.sys) = true :=
    pathExists_writeFile.mpr (Or.inr e2)
  cases hpe : process_exists env (hrExeName env.sys) with
  | error e => rfl
  | ok game_running =>
    simp only [if_neg hsys, if_pos hsys, rseq_rok, rseq_triple_ok]
    by_cases h1 : env.run (dllBuildCmd env.sys (dbgGlArgs args ++ "")) = 0
    · rw [execute_ok h1]
      simp only [rseq_triple_ok]
      by_cases hgr : game_running = true
      · rw [if_pos hgr]
        simp [stagingGoneOnOk, e1, e2]
      · rw [if_neg hgr]
        by_cases h2 : env.run (exeBuildCmd env.sys ("" ++ dbgGlArgs args)) = 0
        · rw [execute_ok h2]
          simp only [rseq_triple_ok]
          by_cases hosx : env.sys = Sys.osx
          · rw [if_pos hosx]
            rcases hx : osxDylibStage env
                (((w1.writeFile (dllStagingPath env.sys)).rename (dllStagingPath env.sys)
                  (dllFinalPath env.sys)).writeFile [hrExeName env.sys]) with ⟨t2, w2, r2⟩
            have hpw := osxDylibStage_world env
              (((w1.writeFile (dllStagingPath env.sys)).rename (dllStagingPath env.sys)
                (dllFinalPath env.sys)).writeFile [hrExeName env.sys])
              (dllStagingPath env.sys) hlen hsdy
            have hpw2 := osxDylibStage_world env
              (((w1.writeFile (dllStagingPath env.sys)).rename (dllStagingPath env.sys)
                (dllFinalPath env.sys)).writeFile [hrExeName env.sys])
              (dllFinalPath env.sys) hflen hfdy
            rw [hx] at hpw hpw2
            dsimp only at hpw hpw2
            rw [e1'] at hpw
            rw [e2'] at hpw2
            cases r2 with
            | error er => rfl
            | ok u =>
              simp only [rseq_triple_ok]
              simp [stagingGoneOnOk, hpw, hpw2]
          · rw [if_neg hosx]
            simp only [rseq_rok]
            simp [stagingGoneOnOk, e1', e2']
        · rw [execute_fail h2]
          simp only [rseq_triple_err]
          rfl
    · rw [execute_fail h1]
      simp only [rseq_triple_err]
      rfl

/-- C3: the staging path coincides with the canonical dll path exactly on Windows and has a
`game_tmp` stem elsewhere; a Windows hot-reload build performs no rename, while on the other
platforms a successful build leaves nothing at the staging path and the canonical path
present (rename-based publishing). -/
theorem c3_staging_and_rename (env : Env) (args : Args) (w : World)
    (hdir : dllStagingPath env.sys ∉ w.dirs) :
    ((dllStagingPath env.sys == dllFinalPath env.sys) = (env.sys == Sys.win)) ∧
      dllStagingPath env.sys = (if env.sys = Sys.win then dllFinalPath Sys.win
        else ["build", "hot_reload", "game_tmp" ++ env.sys.dll]) ∧
      ((if env.sys = Sys.win then !((build_hot_reload env args w).1.any isRenameEv)
        else stagingGoneOnOk env.sys (build_hot_reload env args w)) = true) := by
  refine ⟨?_, ?_, ?_⟩
  · cases env.sys <;> decide
  · cases env.sys <;> rfl
  · by_cases hsys : env.sys = Sys.win
    · rw [if_pos hsys]
      have h := hr_win_no_rename env args w hsys
      cases hAny : (build_hot_reload env args w).1.any isRenameEv with
      | false => rfl
      | true =>
        exfalso
        obtain ⟨e, he, hre⟩ := List.any_eq_true.mp hAny
        have hx := h e he
        simp [hre] at hx
    · rw [if_neg hsys]
      exact hr_nonwin_publish env args w hsys hdir

/-- C3 witness: a concrete Linux hot-reload build against a base world whose directory set
does not contain the staging path. -/
theorem c3_witness :
    dllStagingPath envLinIdle.sys ∉ wUnixBase.dirs ∧
      (((dllStagingPath envLinIdle.sys == dllFinalPath envLinIdle.sys) =
          (envLinIdle.sys == Sys.win)) ∧
        dllStagingPath envLinIdle.sys = (if envLinIdle.sys = Sys.win then dllFinalPath Sys.win
          else ["build", "hot_reload", "game_tmp" ++ envLinIdle.sys.dll]) ∧
        ((if envLinIdle.sys = Sys.win then
            !((build_hot_reload envLinIdle argsHotReload wUnixBase).1.any isRenameEv)
          else stagingGoneOnOk envLinIdle.sys
            (build_hot_reload envLinIdle argsHotReload wUnixBase)) = true)) :=
  ⟨by decide, c3_staging_and_rename envLinIdle argsHotReload wUnixBase (by decide)⟩

/-! ### C6: the release output directory is rebuilt from scratch -/

theorem mem_filesUnder {w : World} {d q : Path} :
    q ∈ w.filesUnder d ↔ q ∈ w.files ∧ d <+: q ∧ q ≠ d := by
  simp only [World.filesUnder, List.mem_filter, Bool.and_eq_true, bne_iff_ne,
    List.isPrefixOf_iff_prefix]

theorem mem_files_copytree {w : World} {src dst q : Path} :
    q ∈ (w.copytree src dst).files ↔
      q ∈ w.files ∨ ∃ p, p ∈ w.files ∧ (src.isPrefixOf p && p != src) = true ∧
        q = dst ++ p.drop src.length := by
  simp only [World.copytree, List.mem_append, List.mem_filterMap]
  refine or_congr Iff.rfl ⟨?_, ?_⟩
  · rintro ⟨p, hp, hf⟩
    by_cases hc : (src.isPrefixOf p && p != src) = true
    · rw [if_pos hc] at hf
      exact ⟨p, hp, hc, (Option.some_inj.mp hf).symm⟩
    · rw [if_neg hc] at hf
      simp at hf
  · rintro ⟨p, hp, hc, rfl⟩
    exact ⟨p, hp, by rw [if_pos hc]⟩

theorem assets_not_under_release {p : Path} (h : (["assets"] : Path) <+: p) :
    ¬ (releaseOutDir <+: p) := by
  rcases h with ⟨t, rfl⟩
  rintro ⟨t2, ht⟩
  simp [releaseOutDir] at ht

theorem assets_ne_exe {p : Path} (h : (["assets"] : Path) <+: p) (sys : Sys) :
    p ≠ releaseExePath sys := by
  rcases h with ⟨t, rfl⟩
  intro hc
  simp [releaseExePath] at hc

theorem closed_release_sub {w : World} (hclosed : World.closedB w = true) {q : Path}
    (hq : q ∈ w.files) (hpre : releaseOutDir <+: q) (hne : q ≠ releaseOutDir) :
    w.pathExists releaseOutDir = true := by
  rcases hpre with ⟨t, rfl⟩
  have ht : t ≠ [] := by
    intro h
    rw [h, List.append_nil] at hne
    exact hne rfl
  have hlen : 2 < (releaseOutDir ++ t).length := by
    rw [List.length_append]
    have h0 : 0 < t.length := List.length_pos.mpr ht
    have hrd : releaseOutDir.length = 2 := rfl
    omega
  have h1 := List.all_eq_true.mp hclosed _ hq
  have h2 := List.all_eq_true.mp h1 2 (List.mem_range.mpr hlen)
  have h3 : w.dirs.contains ((releaseOutDir ++ t).take 2) = true := by
    simpa using h2
  have h4 : (releaseOutDir ++ t).take 2 = releaseOutDir := rfl
  rw [h4] at h3
  exact pathExists_true_iff.mpr (Or.inr (contains_iff_mem.mp h3))

theorem mem_releaseFilesUnder (env : Env) (w : World) (hclosed : World.closedB w = true)
    (q : Path) :
    q ∈ (((make_dirs (if w.pathExists releaseOutDir = true then w.rmtree releaseOutDir
          else w) releaseOutDir).writeFile (releaseExePath env.sys)).copytree ["assets"]
        ["build", "release", "assets"]).filesUnder releaseOutDir ↔
      q = releaseExePath env.sys ∨ q ∈ assetsCopies w := by
  have hw0 : ∀ p : Path, p ∈ (if w.pathExists releaseOutDir = true then w.rmtree releaseOutDir
      else w).files → p ∈ w.files := by
    intro p hp
    by_cases hex : w.pathExists releaseOutDir = true
    · rw [if_pos hex] at hp
      exact (mem_files_rmtree.mp hp).1
    · rw [if_neg hex] at hp
      exact hp
  have hw0r : ∀ p : Path, p ∈ (if w.pathExists releaseOutDir = true then w.rmtree releaseOutDir
      else w).files → releaseOutDir <+: p → p ≠ releaseOutDir → False := by
    intro p hp hpre hne
    by_cases hex : w.pathExists releaseOutDir = true
    · rw [if_pos hex] at hp
      exact (mem_files_rmtree.mp hp).2 hpre
    · rw [if_neg hex] at hp
      exact hex (closed_release_sub hclosed hp hpre hne)
  have hw0a : ∀ p : Path, p ∈ w.files → (["assets"] : Path) <+: p →
      p ∈ (if w.pathExists releaseOutDir = true then w.rmtree releaseOutDir else w).files := by
    intro p hp hpre
    by_cases hex : w.pathExists releaseOutDir = true
    · rw [if_pos hex]
      exact mem_files_rmtree.mpr ⟨hp, assets_not_under_release hpre⟩
    · rw [if_neg hex]
      exact hp
  rw [mem_filesUnder, mem_files_copytree]
  constructor
  · rintro ⟨hmem | ⟨p, hp, hc, rfl⟩, hpre, hne⟩
    · rcases mem_files_writeFile.mp hmem with rfl | hq
      · exact Or.inl rfl
      · rw [files_make_dirs] at hq
        exact (hw0r q hq hpre hne).elim
    · right
      rw [Bool.and_eq_true] at hc
      obtain ⟨hps, hpne⟩ := hc
      have hpp : (["assets"] : Path) <+: p := List.isPrefixOf_iff_prefix.mp hps
      rcases mem_files_writeFile.mp hp with rfl | hq
      · exact absurd rfl (assets_ne_exe hpp env.sys)
      · rw [files_make_dirs] at hq
        exact List.mem_map.mpr ⟨p, mem_filesUnder.mpr ⟨hw0 p hq, hpp, bne_iff_ne.mp hpne⟩, rfl⟩
  · rintro (rfl | hq)
    · refine ⟨Or.inl (mem_files_writeFile.mpr (Or.inl rfl)),
        ⟨["game_release" ++ env.sys.exec], rfl⟩, ?_⟩
      intro hc
      simp [releaseExePath, releaseOutDir] at hc
    · obtain ⟨p, hp, rfl⟩ := List.mem_map.mp hq
      obtain ⟨hpf, hppre, hpne⟩ := mem_filesUnder.mp hp
      refine ⟨Or.inr ⟨p, ?_, ?_, rfl⟩, ⟨"assets" :: p.drop 1, rfl⟩, ?_⟩
      · exact mem_files_writeFile.mpr (Or.inr (by
          rw [files_make_dirs]
          exact hw0a p hpf hppre))
      · rw [Bool.and_eq_true]
        exact ⟨List.isPrefixOf_iff_prefix.mpr hppre, bne_iff_ne.mpr hpne⟩
      · intro hc
        simp [releaseOutDir] at hc

/-- C6: a release build deletes the release output directory when present and recreates it
before compiling, so after a successful `build_release` the files under `build/release` are
exactly the freshly built executable plus the recursive copy of the `assets` tree; in
particular every unrelated file that sat there beforehand is gone. -/
theorem c6_release_dir_fresh (env : Env) (args : Args) (w : World)
    (hclosed : World.closedB w = true)
    (hok : resultOkB (build_release env args w).2.2 = true) :
    ((build_release env args w).2.1.filesUnder releaseOutDir).toFinset =
      insert (releaseExePath env.sys) (assetsCopies w).toFinset := by
  unfold build_release at hok ⊢
  dsimp only at hok ⊢
  simp only [rseq_triple_ok] at hok ⊢
  by_cases hrun : env.run (releaseCmd env.sys (releaseExtraArgs args env.sys)) = 0
  · rw [execute_ok hrun] at hok ⊢
    simp only [rseq_triple_ok] at hok ⊢
    by_cases hassets : ((make_dirs (if w.pathExists releaseOutDir = true
        then w.rmtree releaseOutDir else w) releaseOutDir).writeFile
        (releaseExePath env.sys)).pathExists ["assets"] = true
    · rw [if_pos hassets]
      dsimp only
      ext q
      simp only [List.mem_toFinset, Finset.mem_insert]
      exact mem_releaseFilesUnder env w hclosed q
    · rw [if_neg hassets] at hok
      simp [rerr, resultOkB] at hok
  · rw [execute_fail hrun] at hok
    simp only [rseq_triple_err] at hok
    simp [resultOkB] at hok

/-- C6 witness: a release build over a world whose release directory is pre-seeded with a
stale file. -/
theorem c6_witness :
    World.closedB wRelSeed = true ∧
      resultOkB (build_release envLinIdle argsRelease wRelSeed).2.2 = true ∧
      ((build_release envLinIdle argsRelease wRelSeed).2.1.filesUnder releaseOutDir).toFinset =
        insert (releaseExePath envLinIdle.sys) (assetsCopies wRelSeed).toFinset :=
  ⟨by decide, by decide,
    c6_release_dir_fresh envLinIdle argsRelease wRelSeed (by decide) (by decide)⟩

/-! ### C10: foreign pdb files in the Windows debug-symbol scan -/

theorem scanPdbsGo_err (f : String) (hext : pyEndsWith f ".pdb" = true)
    (hparse : parsePdbName f = none) :
    ∀ (L : List String), f ∈ L → ∀ a : Int,
      ∃ m, scanPdbsGo L a = Except.error (Err.valueError m) := by
  intro L
  induction L with
  | nil =>
    intro h
    exact absurd h (List.not_mem_nil f)
  | cons g gs ih =>
    intro hmem a
    rcases List.mem_cons.mp hmem with rfl | hmem
    · refine ⟨pyStripPre (pyStripSuf f ".pdb") "game_", ?_⟩
      unfold scanPdbsGo
      rw [if_pos hext, hparse]
    · unfold scanPdbsGo
      by_cases hg : pyEndsWith g ".pdb" = true
      · rw [if_pos hg]
        cases hpg : parsePdbName g with
        | none => exact ⟨_, rfl⟩
        | some n => exact ih hmem _
      · rw [if_neg hg]
        exact ih hmem a

theorem winPdbStage_scan_err (w : World) (f : String)
    (hdir : w.pathExists pdbDirPath = true)
    (hf : f ∈ w.listdir pdbDirPath)
    (hext : pyEndsWith f ".pdb" = true)
    (hparse : parsePdbName f = none) :
    ∃ m, winPdbStage true w = rerr w (Err.valueError m) := by
  obtain ⟨m, hscan⟩ := scanPdbsGo_err f hext hparse (w.listdir pdbDirPath) hf 0
  have hscan' : scanPdbs (w.listdir pdbDirPath) = Except.error (Err.valueError m) := hscan
  refine ⟨m, ?_⟩
  unfold winPdbStage
  dsimp only
  rw [if_neg (show ¬ ((!(true : Bool)) = true) by decide)]
  rw [if_neg (show ¬ ((!w.pathExists pdbDirPath) = true) by simp [hdir])]
  rw [hscan']

/-- C10 (amended): during a Windows hot-reload build with the launcher reported running (so
the clean-slate deletion of the debug-symbol directory is skipped) and the debug-symbol
directory present, a listed file ending in `.pdb` whose name after stripping the `.pdb`
suffix and the optional `game_` front part does not parse as a decimal integer makes the
sequence-number scan raise `ValueError`, and the build terminates abnormally. -/
theorem c10_scan_raises (env : Env) (args : Args) (w : World) (f : String)
    (hsys : env.sys = Sys.win)
    (hpe : process_exists env (hrExeName env.sys) = Except.ok true)
    (hout : w.pathExists hrOutDir = true)
    (hdir : w.pathExists pdbDirPath = true)
    (hf : f ∈ w.listdir pdbDirPath)
    (hext : pyEndsWith f ".pdb" = true)
    (hparse : parsePdbName f = none) :
    isValueErrB (build_hot_reload env args w).2.2 = true := by
  obtain ⟨m, hwps⟩ := winPdbStage_scan_err w f hdir hf hext hparse
  unfold build_hot_reload
  dsimp only
  rw [if_neg (show ¬ ((!w.pathExists hrOutDir) = true) by simp [hout])]
  rw [hpe]
  dsimp only
  simp only [hsys, if_pos (rfl : (Sys.win : Sys) = Sys.win)]
  rw [hwps]
  simp only [rerr, rseq_triple_err]
  rfl

/-- C10 counterexample: `7.pdb` ends in `.pdb` and is not of the `game_<decimal integer>`
shape, yet the Windows hot-reload build scans it without raising and completes normally
(`removeprefix("game_")` leaves `"7"`, which `int` parses). -/
theorem c10_counterexample :
    isGamePdbName "7.pdb" = false ∧ pyEndsWith "7.pdb" ".pdb" = true ∧
      "7.pdb" ∈ wPdb7.listdir pdbDirPath ∧
      (build_hot_reload envWinRunning argsHotReload wPdb7).2.2 = Except.ok "" := by
  refine ⟨by decide, by decide, by decide, by decide⟩

/-- C10 witness: the foreign file `launcher.pdb` makes the Windows scan raise. -/
theorem c10_witness :
    envWinRunning.sys = Sys.win ∧
      process_exists envWinRunning (hrExeName envWinRunning.sys) = Except.ok true ∧
      wPdbBad.pathExists hrOutDir = true ∧
      wPdbBad.pathExists pdbDirPath = true ∧
      "launcher.pdb" ∈ wPdbBad.listdir pdbDirPath ∧
      pyEndsWith "launcher.pdb" ".pdb" = true ∧
      parsePdbName "launcher.pdb" = none ∧
      isValueErrB (build_hot_reload envWinRunning argsHotReload wPdbBad).2.2 = true :=
  ⟨rfl, by decide, by decide, by decide, by decide, by decide, by decide,
    c10_scan_raises envWinRunning argsHotReload wPdbBad "launcher.pdb" rfl (by decide)
      (by decide) (by decide) (by decide) (by decide) (by decide)⟩

/-! ### C1: the Windows PDB sequence numbers -/

theorem str_ext {s1 s2 : String} (h : s1.data = s2.data) : s1 = s2 := by
  cases s1
  cases s2
  exact congrArg String.mk h

theorem take_sub_append (A B : List Char) :
    (A ++ B).take ((A ++ B).length - B.length) = A := by
  rw [List.length_append, Nat.add_sub_cancel]
  exact List.take_left A B

theorem isDigitCh_ofNat {d : Nat} (hd : d < 10) : isDigitCh (Char.ofNat (48 + d)) = true := by
  interval_cases d <;> decide

theorem digitVal_ofNat {d : Nat} (hd : d < 10) : digitVal (Char.ofNat (48 + d)) = d := by
  interval_cases d <;> decide

theorem digit_not_ws {c : Char} (h : isDigitCh c = true) : isWsCh c = false := by
  have h1 : c ≠ ' ' := fun he => absurd (he ▸ h) (by decide)
  have h2 : c ≠ '\t' := fun he => absurd (he ▸ h) (by decide)
  have h3 : c ≠ '\n' := fun he => absurd (he ▸ h) (by decide)
  have h4 : c ≠ '\r' := fun he => absurd (he ▸ h) (by decide)
  unfold isWsCh
  rw [decide_eq_false h1, decide_eq_false h2, decide_eq_false h3, decide_eq_false h4]
  rfl

theorem digit_ne_underscore {c : Char} (h : isDigitCh c = true) : ¬ (c = '_') :=
  fun he => absurd (he ▸ h) (by decide)

theorem digit_ne_minus {c : Char} (h : isDigitCh c = true) : ¬ (c = '-') :=
  fun he => absurd (he ▸ h) (by decide)

theorem digit_ne_plus {c : Char} (h : isDigitCh c = true) : ¬ (c = '+') :=
  fun he => absurd (he ▸ h) (by decide)

theorem natDigits_all_digit (n : Nat) : (natDigits n).all isDigitCh = true := by
  induction n using Nat.strong_induction_on with
  | _ n ih =>
    rw [natDigits.eq_def]
    split
    · next h =>
      simp only [List.all_cons, List.all_nil, Bool.and_true]
      exact isDigitCh_ofNat h
    · next h =>
      rw [List.all_append, Bool.and_eq_true]
      refine ⟨ih (n / 10) (Nat.div_lt_self (by omega) (by omega)), ?_⟩
      simp only [List.all_cons, List.all_nil, Bool.and_true]
      exact isDigitCh_ofNat (Nat.mod_lt _ (by omega))

theorem natDigits_ne_nil (n : Nat) : natDigits n ≠ [] := by
  rw [natDigits.eq_def]
  split
  · exact List.cons_ne_nil _ _
  · intro h
    exact absurd (List.append_eq_nil.mp h).2 (List.cons_ne_nil _ _)

theorem digitsVal_append (xs : List Char) (c : Char) :
    digitsVal (xs ++ [c]) = digitsVal xs * 10 + digitVal c := by
  unfold digitsVal
  rw [List.foldl_append]
  rfl

theorem digitsVal_natDigits (n : Nat) : digitsVal (natDigits n) = n := by
  induction n using Nat.strong_induction_on with
  | _ n ih =>
    rw [natDigits.eq_def]
    split
    · next h =>
      unfold digitsVal
      simp only [List.foldl_cons, List.foldl_nil]
      rw [digitVal_ofNat h]
      omega
    · next h =>
      rw [digitsVal_append, ih (n / 10) (Nat.div_lt_self (by omega) (by omega)),
        digitVal_ofNat (Nat.mod_lt _ (by omega))]
      omega

theorem groupTail_digits : ∀ cs : List Char, cs.all isDigitCh = true → groupTail cs = true := by
  intro cs
  induction cs with
  | nil => intro _; rfl
  | cons c rest ih =>
    intro h
    rw [List.all_cons, Bool.and_eq_true] at h
    unfold groupTail
    rw [if_neg (digit_ne_underscore h.1), h.1, ih h.2]
    rfl

theorem dropWhile_no (p : Char → Bool) : ∀ cs : List Char, (∀ c ∈ cs, p c = false) →
    cs.dropWhile p = cs := by
  intro cs h
  cases cs with
  | nil => rfl
  | cons c rest =>
    rw [List.dropWhile_cons, if_neg (by simp [h c (List.mem_cons_self c rest)])]

theorem stripWs_digits {cs : List Char} (h : cs.all isDigitCh = true) : stripWs cs = cs := by
  have hno : ∀ c ∈ cs, isWsCh c = false := fun c hc =>
    digit_not_ws (List.all_eq_true.mp h c hc)
  unfold stripWs
  rw [dropWhile_no _ _ hno,
    dropWhile_no _ _ (fun c hc => hno c (List.mem_reverse.mp hc)),
    List.reverse_reverse]

theorem pyIntList_digits {cs : List Char} (hne : cs ≠ []) (h : cs.all isDigitCh = true) :
    pyIntList cs = some ((digitsVal cs : Nat) : Int) := by
  unfold pyIntList
  rw [stripWs_digits h]
  cases cs with
  | nil => exact absurd rfl hne
  | cons c rest =>
    have hall := h
    rw [List.all_cons, Bool.and_eq_true] at hall
    have hgd : digitGroupOk (c :: rest) = true := by
      unfold digitGroupOk
      dsimp only
      rw [hall.1, groupTail_digits rest hall.2]
      rfl
    have hfil : (c :: rest).filter (fun x => x != '_') = c :: rest :=
      List.filter_eq_self.mpr (fun a ha => bne_iff_ne.mpr
        (digit_ne_underscore (List.all_eq_true.mp h a ha)))
    dsimp only
    rw [if_neg (digit_ne_minus hall.1), if_neg (digit_ne_plus hall.1), if_pos hgd, hfil]

theorem pyInt_natStr (n : Nat) : pyInt (natStr n) = some ((n : Nat) : Int) := by
  unfold pyInt natStr
  show pyIntList (natDigits n) = _
  rw [pyIntList_digits (natDigits_ne_nil n) (natDigits_all_digit n), digitsVal_natDigits]

theorem pdbName_endsWith (k : Int) :
    pyEndsWith ("game_" ++ intStr k ++ ".pdb") ".pdb" = true := by
  unfold pyEndsWith
  rw [List.isPrefixOf_iff_prefix]
  rw [show ("game_" ++ intStr k ++ ".pdb").data =
    ("game_" ++ intStr k).data ++ ".pdb".data from rfl]
  rw [List.reverse_append]
  exact List.prefix_append _ _

theorem parse_pdbName (k : Int) (hk : 0 ≤ k) :
    parsePdbName ("game_" ++ intStr k ++ ".pdb") = some k := by
  unfold parsePdbName
  have h1 : pyStripSuf ("game_" ++ intStr k ++ ".pdb") ".pdb" = "game_" ++ intStr k := by
    unfold pyStripSuf
    rw [if_pos (show (".pdb".data.reverse.isPrefixOf
      ("game_" ++ intStr k ++ ".pdb").data.reverse) = true from pdbName_endsWith k)]
    refine str_ext ?_
    show (("game_" ++ intStr k ++ ".pdb").data).take
        ((("game_" ++ intStr k ++ ".pdb").data).length - (".pdb".data).length) =
      ("game_" ++ intStr k).data
    rw [show ("game_" ++ intStr k ++ ".pdb").data =
      ("game_" ++ intStr k).data ++ ".pdb".data from rfl]
    exact take_sub_append _ _
  rw [h1]
  have h2 : pyStripPre ("game_" ++ intStr k) "game_" = intStr k := by
    unfold pyStripPre
    rw [if_pos (by
      rw [List.isPrefixOf_iff_prefix,
        show ("game_" ++ intStr k).data = "game_".data ++ (intStr k).data from rfl]
      exact List.prefix_append _ _)]
    refine str_ext ?_
    show (("game_" ++ intStr k).data).drop ("game_".data.length) = (intStr k).data
    rw [show ("game_" ++ intStr k).data = "game_".data ++ (intStr k).data from rfl]
    exact List.drop_left _ _
  rw [h2]
  rw [show intStr k = natStr k.toNat from by rw [intStr, if_neg (by omega : ¬ k < 0)]]
  rw [pyInt_natStr, Int.toNat_of_nonneg hk]

theorem childName_newPdbFile (k : Int) :
    childName pdbDirPath (newPdbFile k) = some ("game_" ++ intStr k ++ ".pdb") := rfl

theorem scanPdbsGo_ge : ∀ (L : List String) (a r : Int), scanPdbsGo L a = Except.ok r →
    a ≤ r := by
  intro L
  induction L with
  | nil =>
    intro a r h
    unfold scanPdbsGo at h
    simp only [Except.ok.injEq] at h
    omega
  | cons g gs ih =>
    intro a r h
    unfold scanPdbsGo at h
    by_cases hg : pyEndsWith g ".pdb" = true
    · rw [if_pos hg] at h
      cases hp : parsePdbName g with
      | none =>
        rw [hp] at h
        simp at h
      | some n =>
        rw [hp] at h
        have h1 := ih _ _ h
        have h2 : a ≤ (if n > a then n else a) := by split <;> omega
        exact le_trans h2 h1
    · rw [if_neg hg] at h
      exact ih _ _ h

theorem scanPdbsGo_mem_ge : ∀ (L : List String) (a r : Int), scanPdbsGo L a = Except.ok r →
    ∀ f n, f ∈ L → pyEndsWith f ".pdb" = true → parsePdbName f = some n → n ≤ r := by
  intro L
  induction L with
  | nil =>
    intro a r h f n hf
    exact absurd hf (List.not_mem_nil f)
  | cons g gs ih =>
    intro a r h f n hf hfe hfp
    unfold scanPdbsGo at h
    rcases List.mem_cons.mp hf with rfl | hf
    · rw [if_pos hfe, hfp] at h
      have h1 := scanPdbsGo_ge _ _ _ h
      have h2 : n ≤ (if n > a then n else a) := by split <;> omega
      exact le_trans h2 h1
    · by_cases hg : pyEndsWith g ".pdb" = true
      · rw [if_pos hg] at h
        cases hp : parsePdbName g with
        | none =>
          rw [hp] at h
          simp at h
        | some k =>
          rw [hp] at h
          exact ih _ _ h f n hf hfe hfp
      · rw [if_neg hg] at h
        exact ih _ _ h f n hf hfe hfp

theorem pathExists_rmtree_self {w : World} {d : Path} :
    (w.rmtree d).pathExists d = false := by
  rw [← Bool.not_eq_true]
  intro hc
  rcases pathExists_true_iff.mp hc with hc | hc
  · exact (mem_files_rmtree.mp hc).2 (List.prefix_refl d)
  · exact (mem_dirs_rmtree.mp hc).2 (List.prefix_refl d)

theorem make_dirs_pdb_exists (w : World) :
    (make_dirs w pdbDirPath).pathExists pdbDirPath = true := by
  unfold make_dirs
  rw [show nePrefixes pdbDirPath = [["build"], ["build", "hot_reload"],
    ["build", "hot_reload", "game_pdbs"]] from rfl]
  simp only [List.foldl_cons, List.foldl_nil]
  repeat' split
  all_goals first
    | assumption
    | exact pathExists_mkdir.mpr (Or.inl rfl)

theorem winPdbStage_true_eq (w : World) :
    winPdbStage true w =
      if (!w.pathExists pdbDirPath) = true then rok (make_dirs w pdbDirPath) 0
      else match scanPdbs (w.listdir pdbDirPath) with
        | .error e => rerr w e
        | .ok n => rok w n := by
  unfold winPdbStage
  dsimp only
  rw [if_neg (show ¬ ((!(true : Bool)) = true) by decide)]

theorem listdir_writeFile_mem {w : World} {p d : Path} {s : String}
    (h : childName d p = some s) : s ∈ (w.writeFile p).listdir d := by
  simp only [World.listdir, World.writeFile, List.mem_filterMap]
  exact ⟨p, List.mem_append_left _ (List.mem_cons_self _ _), h⟩

theorem listdir_writeFile_pres {w : World} {p d : Path} {s : String}
    (h : s ∈ w.listdir d) : s ∈ (w.writeFile p).listdir d := by
  simp only [World.listdir, List.mem_filterMap] at h
  obtain ⟨q, hq, hcn⟩ := h
  simp only [World.listdir, World.writeFile, List.mem_filterMap]
  rcases List.mem_append.mp hq with hq | hq
  · by_cases hqp : q = p
    · exact ⟨p, List.mem_append_left _ (List.mem_cons_self _ _), hqp ▸ hcn⟩
    · exact ⟨q, List.mem_append_left _ (List.mem_cons_of_mem _
        (List.mem_filter.mpr ⟨hq, bne_iff_ne.mpr hqp⟩)), hcn⟩
  · exact ⟨q, List.mem_append_right _ hq, hcn⟩

theorem listdir_mkdir_pres {w : World} {p d : Path} {s : String}
    (h : s ∈ w.listdir d) : s ∈ (w.mkdir p).listdir d := by
  simp only [World.listdir, List.mem_filterMap] at h
  obtain ⟨q, hq, hcn⟩ := h
  simp only [World.listdir, World.mkdir, List.mem_filterMap]
  rcases List.mem_append.mp hq with hq | hq
  · exact ⟨q, List.mem_append_left _ hq, hcn⟩
  · by_cases hqp : q = p
    · exact ⟨p, List.mem_append_right _ (List.mem_cons_self _ _), hqp ▸ hcn⟩
    · exact ⟨q, List.mem_append_right _ (List.mem_cons_of_mem _
        (List.mem_filter.mpr ⟨hq, bne_iff_ne.mpr hqp⟩)), hcn⟩

theorem listdir_foldl_mkdirs_pres : ∀ (L : List Path) (w : World) {d : Path} {s : String},
    s ∈ w.listdir d →
      s ∈ ((L.foldl (fun w p => if w.pathExists p then w else w.mkdir p) w).listdir d) := by
  intro L
  induction L with
  | nil => intro w d s h; exact h
  | cons p ps ih =>
    intro w d s h
    rw [List.foldl_cons]
    apply ih
    by_cases hex : w.pathExists p = true
    · rw [if_pos hex]
      exact h
    · rw [if_neg hex]
      exact listdir_mkdir_pres h

theorem hrWorld1_pathExists {w : World} {q : Path} (h : w.pathExists q = true) :
    (hrWorld1 w).pathExists q = true := by
  unfold hrWorld1
  split
  · exact pathExists_foldl_mkdirs.mpr (Or.inl h)
  · exact h

theorem hrWorld1_listdir_pres {w : World} {d : Path} {s : String} (h : s ∈ w.listdir d) :
    s ∈ (hrWorld1 w).listdir d := by
  unfold hrWorld1
  split
  · exact listdir_foldl_mkdirs_pres (nePrefixes hrOutDir) w h
  · exact h

theorem bhr_running_cases (env : Env) (args : Args) (w : World)
    (hsys : env.sys = Sys.win)
    (hpe : process_exists env (hrExeName Sys.win) = Except.ok true) :
    (pdbNumsOf (build_hot_reload env args w).1 = [] ∧
        resultOkB (build_hot_reload env args w).2.2 = false) ∨
      ∃ r : Int, 0 ≤ r ∧
        ((hrWorld1 w).pathExists pdbDirPath = true →
          ∀ f n, f ∈ (hrWorld1 w).listdir pdbDirPath → pyEndsWith f ".pdb" = true →
            parsePdbName f = some n → n ≤ r) ∧
        pdbNumsOf (build_hot_reload env args w).1 = [r + 1] ∧
        (resultOkB (build_hot_reload env args w).2.2 = true →
          pdbInv (build_hot_reload env args w).2.1 (r + 1)) := by
  unfold build_hot_reload
  dsimp only
  rw [show (if (!w.pathExists hrOutDir) = true then make_dirs w hrOutDir else w) = hrWorld1 w
    from rfl]
  simp only [hsys]
  simp only [if_pos (rfl : (Sys.win : Sys) = Sys.win),
    if_neg (show ¬ ((Sys.win : Sys) ≠ Sys.win) from by decide)]
  rw [hpe]
  dsimp only
  simp only [if_true]
  rw [winPdbStage_true_eq]
  by_cases hfresh : (!(hrWorld1 w).pathExists pdbDirPath) = true
  · rw [if_pos hfresh]
    simp only [if_true, rok, rseq_rok, rseq_triple_ok]
    by_cases hr1 : env.run (dllBuildCmd Sys.win (dbgGlArgs args ++ pdbNameArg (0 + 1))) = 0
    · rw [execute_ok hr1]
      simp only [if_true, rseq_triple_ok, rseq_rok]
      right
      refine ⟨0, le_refl 0, ?_, rfl, ?_⟩
      · intro hex
        rw [hex] at hfresh
        exact absurd hfresh (by decide)
      · intro _
        exact ⟨pathExists_writeFile.mpr (Or.inr (pathExists_writeFile.mpr
            (Or.inr (make_dirs_pdb_exists _)))),
          listdir_writeFile_mem (childName_newPdbFile _)⟩
    · rw [execute_fail hr1]
      simp only [rseq_triple_err]
      right
      refine ⟨0, le_refl 0, ?_, rfl, ?_⟩
      · intro hex
        rw [hex] at hfresh
        exact absurd hfresh (by decide)
      · intro hok
        simp [resultOkB] at hok
  · rw [if_neg hfresh]
    cases hscan : scanPdbs ((hrWorld1 w).listdir pdbDirPath) with
    | error er =>
      simp only [rerr, rseq_triple_err]
      left
      exact ⟨rfl, rfl⟩
    | ok r =>
      have hr0 : 0 ≤ r := scanPdbsGo_ge _ _ _ hscan
      simp only [if_true, rok, rseq_rok, rseq_triple_ok]
      by_cases hr1 : env.run (dllBuildCmd Sys.win (dbgGlArgs args ++ pdbNameArg (r + 1))) = 0
      · rw [execute_ok hr1]
        simp only [if_true, rseq_triple_ok, rseq_rok]
        right
        refine ⟨r, hr0, ?_, rfl, ?_⟩
        · intro _ f n hf hfe hfp
          exact scanPdbsGo_mem_ge _ _ _ hscan f n hf hfe hfp
        · intro _
          have hex : (hrWorld1 w).pathExists pdbDirPath = true := by
            cases hb : (hrWorld1 w).pathExists pdbDirPath
            · rw [hb] at hfresh
              exact absurd (by decide) hfresh
            · rfl
          exact ⟨pathExists_writeFile.mpr (Or.inr (pathExists_writeFile.mpr (Or.inr hex))),
            listdir_writeFile_mem (childName_newPdbFile _)⟩
      · rw [execute_fail hr1]
        simp only [rseq_triple_err]
        right
        refine ⟨r, hr0, ?_, rfl, ?_⟩
        · intro _ f n hf hfe hfp
          exact scanPdbsGo_mem_ge _ _ _ hscan f n hf hfe hfp
        · intro hok
          simp [resultOkB] at hok

theorem hotReloadSeq_cons (args : Args) (e : Env) (es : List Env) (w : World) :
    hotReloadSeq args (e :: es) w =
      match build_hot_reload e args w with
      | (t, w', r) =>
        match r with
        | .error _ => (pdbNumsOf t, w', false)
        | .ok _ => match hotReloadSeq args es w' with
          | (ns, w2, b) => (pdbNumsOf t ++ ns, w2, b) := rfl

theorem hotReloadSeq_cons_err (args : Args) (e : Env) (es : List Env) (w : World)
    {t : List Event} {w' : World} {er : Err}
    (hb : build_hot_reload e args w = (t, w', Except.error er)) :
    hotReloadSeq args (e :: es) w = (pdbNumsOf t, w', false) := by
  rw [hotReloadSeq_cons, hb]

theorem hotReloadSeq_cons_ok (args : Args) (e : Env) (es : List Env) (w : World)
    {t : List Event} {w' : World} {s : String}
    (hb : build_hot_reload e args w = (t, w', Except.ok s)) :
    (hotReloadSeq args (e :: es) w).1 = pdbNumsOf t ++ (hotReloadSeq args es w').1 := by
  rw [hotReloadSeq_cons, hb]

theorem hotReloadSeq_chain (args : Args) : ∀ (envs : List Env) (w : World) (m : Int),
    (∀ e ∈ envs, e.sys = Sys.win) →
    (∀ e ∈ envs, process_exists e (hrExeName Sys.win) = Except.ok true) →
    0 ≤ m → pdbInv w m →
    List.Chain (· < ·) m (hotReloadSeq args envs w).1 := by
  intro envs
  induction envs with
  | nil =>
    intro w m _ _ _ _
    exact List.Chain.nil
  | cons e es ih =>
    intro w m hsys hrun hm hinv
    have hsw := hsys e (List.mem_cons_self e es)
    have hpe := hrun e (List.mem_cons_self e es)
    rcases bhr_running_cases e args w hsw hpe with ⟨hnums, hok⟩ | ⟨r, hr0, hbound, hnums, hinv2⟩
    · rcases hb : build_hot_reload e args w with ⟨t, w', rr⟩
      rw [hb] at hnums hok
      dsimp only at hnums hok
      cases rr with
      | ok s => simp [resultOkB] at hok
      | error er =>
        rw [hotReloadSeq_cons_err args e es w hb]
        show List.Chain _ m (pdbNumsOf t)
        rw [hnums]
        exact List.Chain.nil
    · have hmr : m < r + 1 := by
        have hw1ex : (hrWorld1 w).pathExists pdbDirPath = true := hrWorld1_pathExists hinv.1
        have hw1mem : ("game_" ++ intStr m ++ ".pdb") ∈ (hrWorld1 w).listdir pdbDirPath :=
          hrWorld1_listdir_pres hinv.2
        have := hbound hw1ex _ m hw1mem (pdbName_endsWith m) (parse_pdbName m hm)
        omega
      rcases hb : build_hot_reload e args w with ⟨t, w', rr⟩
      rw [hb] at hnums hinv2
      dsimp only at hnums hinv2
      cases rr with
      | error er =>
        rw [hotReloadSeq_cons_err args e es w hb]
        show List.Chain _ m (pdbNumsOf t)
        rw [hnums]
        exact List.Chain.cons hmr List.Chain.nil
      | ok s =>
        have hiv := hinv2 rfl
        rw [hotReloadSeq_cons_ok args e es w hb, hnums, List.singleton_append]
        refine List.Chain.cons hmr ?_
        exact ih w' (r + 1) (fun x hx => hsys x (List.mem_cons_of_mem e hx))
          (fun x hx => hrun x (List.mem_cons_of_mem e hx)) (by omega) hiv

/-- C1 (amended): over a sequence of Windows hot-reload builds in which the launcher process
is reported running at every build, the PDB sequence numbers passed to the dll compiles are
strictly increasing, so no number is reused or decremented; a build in which the launcher is
not running instead deletes the debug-symbol directory (clean slate) and restarts the
numbering. -/
theorem c1_pdb_numbers_increase (args : Args) (envs : List Env) (w : World)
    (hsys : ∀ e ∈ envs, e.sys = Sys.win)
    (hrun : ∀ e ∈ envs, process_exists e (hrExeName Sys.win) = Except.ok true) :
    List.Chain' (· < ·) (hotReloadSeq args envs w).1 := by
  cases envs with
  | nil => exact trivial
  | cons e es =>
    have hsw := hsys e (List.mem_cons_self e es)
    have hpe := hrun e (List.mem_cons_self e es)
    rcases bhr_running_cases e args w hsw hpe with ⟨hnums, hok⟩ | ⟨r, hr0, hbound, hnums, hinv2⟩
    · rcases hb : build_hot_reload e args w with ⟨t, w', rr⟩
      rw [hb] at hnums hok
      dsimp only at hnums hok
      cases rr with
      | ok s => simp [resultOkB] at hok
      | error er =>
        rw [hotReloadSeq_cons_err args e es w hb]
        show List.Chain' _ (pdbNumsOf t)
        rw [hnums]
        exact trivial
    · rcases hb : build_hot_reload e args w with ⟨t, w', rr⟩
      rw [hb] at hnums hinv2
      dsimp only at hnums hinv2
      cases rr with
      | error er =>
        rw [hotReloadSeq_cons_err args e es w hb]
        show List.Chain' _ (pdbNumsOf t)
        rw [hnums]
        exact List.Chain.nil
      | ok s =>
        have hiv := hinv2 rfl
        rw [hotReloadSeq_cons_ok args e es w hb, hnums, List.singleton_append]
        show List.Chain _ (r + 1) (hotReloadSeq args es w').1
        exact hotReloadSeq_chain args es w' (r + 1)
          (fun x hx => hsys x (List.mem_cons_of_mem e hx))
          (fun x hx => hrun x (List.mem_cons_of_mem e hx)) (by omega) hiv

/-- C1 counterexample: two consecutive Windows hot-reload builds with the launcher not
running both get PDB sequence number 1 — the clean-slate step deletes the debug-symbol
directory, so the sequence [1, 1] is neither strictly increasing nor free of reuse. -/
theorem c1_counterexample :
    (hotReloadSeq argsHotReload [envWinIdle, envWinIdle] wWinBase).1 = [1, 1] ∧
      ¬ List.Chain' (· < ·) (hotReloadSeq argsHotReload [envWinIdle, envWinIdle] wWinBase).1 := by
  refine ⟨by decide, ?_⟩
  rw [show (hotReloadSeq argsHotReload [envWinIdle, envWinIdle] wWinBase).1 = [1, 1]
    from by decide]
  intro hc
  exact absurd (List.chain'_cons.mp hc).1 (by decide)

/-- C1 witness: two builds with the launcher running over a pdb directory holding `7.pdb`
produce the strictly increasing numbers 8 and 9. -/
theorem c1_witness :
    (∀ e ∈ [envWinRunning, envWinRunning], e.sys = Sys.win) ∧
      (∀ e ∈ [envWinRunning, envWinRunning],
        process_exists e (hrExeName Sys.win) = Except.ok true) ∧
      List.Chain' (· < ·)
        (hotReloadSeq argsHotReload [envWinRunning, envWinRunning] wPdb7).1 :=
  ⟨by decide, by decide,
    c1_pdb_numbers_increase argsHotReload [envWinRunning, envWinRunning] wPdb7
      (by decide) (by decide)⟩

end BuildPy
